import Mathlib

/-!
Verification development for the Settlement Extraction & Multi-Vehicle
Allocation Engine (backend/app/utils/pdf_parser.py,
backend/app/utils/settlement_extractor.py, backend/app/routers/extractor.py,
backend/app/utils/validation.py).

The engine consumes the text of a settlement PDF.  Following the spec, the
raw text is modelled as an ordered list of lines (the PDF-to-text collaborator
is out of scope); the Python code joins page texts and re-splits on newlines,
which round-trips to the same list when no line embeds a newline.  Monetary
amounts are modelled as exact rationals standing for the parsed decimal
literals.  Regular-expression searches are modelled by explicit character
scanners that follow the source patterns.
-/

namespace Elis

/-! ## Character and string utilities -/

def nlChar : Char := Char.ofNat 10

def apoChar : Char := Char.ofNat 39

def apoStr : String := String.mk [apoChar]

def isUpperCh (c : Char) : Bool := 'A' ≤ c && c ≤ 'Z'

def isLowerCh (c : Char) : Bool := 'a' ≤ c && c ≤ 'z'

def isAlphaCh (c : Char) : Bool := isUpperCh c || isLowerCh c

def isDigitCh (c : Char) : Bool := '0' ≤ c && c ≤ '9'

/-- word character for the purposes of a regex word boundary -/
def isWordCh (c : Char) : Bool := isAlphaCh c || isDigitCh c || c = '_'

def isSpaceCh (c : Char) : Bool :=
  c = ' ' || c = nlChar || c = Char.ofNat 9 || c = Char.ofNat 13

def upCh (c : Char) : Char := if isLowerCh c then Char.ofNat (c.toNat - 32) else c

def upStr (s : String) : String := String.mk (s.toList.map upCh)

/-- exact prefix test on character lists -/
def chPre : List Char → List Char → Bool
  | [], _ => true
  | _ :: _, [] => false
  | a :: as, b :: bs => a = b && chPre as bs

/-- case-insensitive prefix test -/
def chPreCI : List Char → List Char → Bool
  | [], _ => true
  | _ :: _, [] => false
  | a :: as, b :: bs => upCh a = upCh b && chPreCI as bs

def chInfix (pat : List Char) : List Char → Bool
  | [] => chPre pat []
  | c :: cs => chPre pat (c :: cs) || chInfix pat cs

def strContains (s pat : String) : Bool := chInfix pat.toList s.toList

def chInfixCI (pat : List Char) : List Char → Bool
  | [] => chPreCI pat []
  | c :: cs => chPreCI pat (c :: cs) || chInfixCI pat cs

def strContainsCI (s pat : String) : Bool := chInfixCI pat.toList s.toList

/-- the suffix after the first (case-insensitive) occurrence of `pat` -/
def afterSubCI (pat : List Char) : List Char → Option (List Char)
  | [] => if pat.isEmpty then some [] else none
  | c :: cs =>
    if chPreCI pat (c :: cs) then some ((c :: cs).drop pat.length)
    else afterSubCI pat cs

def joinLines (ls : List String) : String := String.intercalate (String.mk [nlChar]) ls

/-- maximal runs of word characters of a string, in order -/
def wordRunsAux : List Char → List Char → List String
  | cur, [] => if cur.isEmpty then [] else [String.mk cur.reverse]
  | cur, c :: cs =>
    if isWordCh c then wordRunsAux (c :: cur) cs
    else if cur.isEmpty then wordRunsAux [] cs
    else String.mk cur.reverse :: wordRunsAux [] cs

def wordRuns (s : String) : List String := wordRunsAux [] s.toList

/-- whitespace-separated tokens of a line -/
def spaceToksAux : List Char → List Char → List String
  | cur, [] => if cur.isEmpty then [] else [String.mk cur.reverse]
  | cur, c :: cs =>
    if isSpaceCh c then
      if cur.isEmpty then spaceToksAux [] cs
      else String.mk cur.reverse :: spaceToksAux [] cs
    else spaceToksAux (c :: cur) cs

def spaceToks (s : String) : List String := spaceToksAux [] s.toList

/-! ## Money parsing

Models the regex fragment `([\d,]+\.?\d*)` turned into a float after
stripping commas. -/

def digitVal (c : Char) : Nat := c.toNat - '0'.toNat

def natOfDigits (ds : List Char) : Nat := ds.foldl (fun n c => 10 * n + digitVal c) 0

/-- parse `[\d,]+\.?\d*` at the head of the input; returns the value and the
rest of the input after the match -/
def parseMoneyAt (cs : List Char) : Option (ℚ × List Char) :=
  let intPart := cs.takeWhile (fun c => isDigitCh c || c = ',')
  if intPart.isEmpty then none
  else
    let rest := cs.drop intPart.length
    let fracPart :=
      match rest with
      | '.' :: r => r.takeWhile isDigitCh
      | _ => []
    let rest2 :=
      match rest with
      | '.' :: r => r.drop fracPart.length
      | _ => rest
    let whole : ℚ := (natOfDigits (intPart.filter isDigitCh) : ℚ)
    let frac : ℚ := (natOfDigits fracPart : ℚ) / ((10 : ℚ) ^ fracPart.length)
    some (whole + frac, rest2)

/-- all matches of `\$([\d,]+\.?\d*)` in a string, left to right,
non-overlapping (models `re.findall`) -/
def dollarAmountsGo : Nat → List Char → List ℚ
  | 0, _ => []
  | _ + 1, [] => []
  | n + 1, c :: cs =>
    if c = '$' then
      match parseMoneyAt cs with
      | some (q, rest) => q :: dollarAmountsGo n rest
      | none => dollarAmountsGo n cs
    else dollarAmountsGo n cs

def dollarAmounts (s : String) : List ℚ := dollarAmountsGo s.length s.toList

/-- first match of `kw\s+\$?([\d,]+\.?\d*)` (case-insensitive), searching the
whole text (models `re.search`; `\s` also crosses line breaks as in Python) -/
def kwAmountGo (kw : List Char) : Nat → List Char → Option ℚ
  | 0, _ => none
  | _ + 1, [] => none
  | n + 1, c :: cs =>
    (if chPreCI kw (c :: cs) then
      let rest := (c :: cs).drop kw.length
      let sp := rest.takeWhile isSpaceCh
      if sp.isEmpty then none
      else
        let rest2 := rest.drop sp.length
        let rest3 := match rest2 with | '$' :: r => r | r => r
        match parseMoneyAt rest3 with
        | some (q, _) => some q
        | none => none
    else none).orElse (fun _ => kwAmountGo kw n cs)

def kwAmount (text : String) (kw : String) : Option ℚ :=
  kwAmountGo kw.toList text.length text.toList

/-- all matches of `\(\$\s*([\d,]+\.?\d*)\)` in a string, in order -/
def parenAmountsGo : Nat → List Char → List ℚ
  | 0, _ => []
  | _ + 1, [] => []
  | n + 1, '(' :: cs =>
    (match cs with
     | '$' :: r =>
       let sp := r.takeWhile isSpaceCh
       let r2 := r.drop sp.length
       match parseMoneyAt r2 with
       | some (q, ')' :: rest) => some (q, rest)
       | _ => none
     | _ => none).elim (parenAmountsGo n cs) (fun (q, rest) => q :: parenAmountsGo n rest)
  | n + 1, _ :: cs => parenAmountsGo n cs

def parenAmounts (s : String) : List ℚ := parenAmountsGo s.length s.toList

/-- the portion of the input before the first newline (`[^\n]*` territory) -/
def lineOf (cs : List Char) : List Char := cs.takeWhile (fun c => c ≠ nlChar)

/-- first match of `kw[^\n]*\(\$\s*([\d,]+\.?\d*)\)` (case-insensitive).
The greedy `[^\n]*` makes the group the last parenthesised amount on the
rest of the line following `kw`. -/
def kwParenGo (kw : List Char) : Nat → List Char → Option ℚ
  | 0, _ => none
  | _ + 1, [] => none
  | n + 1, c :: cs =>
    (if chPreCI kw (c :: cs) then
      let rest := lineOf ((c :: cs).drop kw.length)
      (parenAmounts (String.mk rest)).getLast?
    else none).orElse (fun _ => kwParenGo kw n cs)

def kwParen (text : String) (kw : String) : Option ℚ :=
  kwParenGo kw.toList text.length text.toList

/-- first match of `kw[^\n]*\$\s*([\d,]+\.?\d*)` (case-insensitive); the
greedy `[^\n]*` selects the last `$amount` on the rest of the line -/
def dollarAfterAt : Nat → List Char → List ℚ
  | 0, _ => []
  | _ + 1, [] => []
  | n + 1, '$' :: cs =>
    let sp := cs.takeWhile isSpaceCh
    (match parseMoneyAt (cs.drop sp.length) with
     | some (q, rest) => q :: dollarAfterAt n rest
     | none => dollarAfterAt n cs)
  | n + 1, _ :: cs => dollarAfterAt n cs

def kwDollarLooseGo (kw : List Char) : Nat → List Char → Option ℚ
  | 0, _ => none
  | _ + 1, [] => none
  | n + 1, c :: cs =>
    (if chPreCI kw (c :: cs) then
      let rest := lineOf ((c :: cs).drop kw.length)
      (dollarAfterAt rest.length rest).getLast?
    else none).orElse (fun _ => kwDollarLooseGo kw n cs)

def kwDollarLoose (text : String) (kw : String) : Option ℚ :=
  kwDollarLooseGo kw.toList text.length text.toList

/-- number of matches of `kw[^\n]*\(\$\s*NUM\)` (case-insensitive) over the
text, models `re.findall` counting; scanning resumes after each match -/
def kwParenCountGo (kw : List Char) : Nat → List Char → Nat
  | 0, _ => 0
  | _ + 1, [] => 0
  | n + 1, c :: cs =>
    if chPreCI kw (c :: cs) then
      let rest := lineOf ((c :: cs).drop kw.length)
      if (parenAmounts (String.mk rest)).isEmpty then kwParenCountGo kw n cs
      else 1 + kwParenCountGo kw n ((c :: cs).drop (kw.length + rest.length))
    else kwParenCountGo kw n cs

def kwParenCount (text : String) (kw : String) : Nat :=
  kwParenCountGo kw.toList text.length text.toList

/-- first match of `Payroll\s+Fee\s+\$?NUM` (case-insensitive) -/
def payrollFeeLooseGo : Nat → List Char → Option ℚ
  | 0, _ => none
  | _ + 1, [] => none
  | n + 1, c :: cs =>
    (if chPreCI "Payroll".toList (c :: cs) then
      let r1 := (c :: cs).drop 7
      let sp1 := r1.takeWhile isSpaceCh
      if sp1.isEmpty then none
      else
        let r2 := r1.drop sp1.length
        if chPreCI "Fee".toList r2 then
          let r3 := r2.drop 3
          let sp2 := r3.takeWhile isSpaceCh
          if sp2.isEmpty then none
          else
            let r4 := r3.drop sp2.length
            let r5 := match r4 with | '$' :: r => r | r => r
            match parseMoneyAt r5 with
            | some (q, _) => some q
            | none => none
        else none
    else none).orElse (fun _ => payrollFeeLooseGo n cs)

def payrollFeeLoose (text : String) : Option ℚ :=
  payrollFeeLooseGo text.length text.toList

/-! ## Token shapes -/

/-- exact word of shape `[A-Z]{minA,3}\d{3,6}` (whole token, case-sensitive),
modelling `\b(...)\b` patterns -/
def plateShapeUC (minA : Nat) (w : String) : Bool :=
  let cs := w.toList
  let al := cs.takeWhile isUpperCh
  let ds := (cs.drop al.length).takeWhile isDigitCh
  decide (minA ≤ al.length) && decide (al.length ≤ 3) &&
    decide (3 ≤ ds.length) && decide (ds.length ≤ 6) &&
    (cs.drop (al.length + ds.length)).isEmpty

/-- exact word of shape `[A-Za-z]{minA,3}\d{3,6}` (case-insensitive variant) -/
def plateShapeCI (minA : Nat) (w : String) : Bool :=
  let cs := w.toList
  let al := cs.takeWhile isAlphaCh
  let ds := (cs.drop al.length).takeWhile isDigitCh
  decide (minA ≤ al.length) && decide (al.length ≤ 3) &&
    decide (3 ≤ ds.length) && decide (ds.length ≤ 6) &&
    (cs.drop (al.length + ds.length)).isEmpty

/-- exact word of shape `[A-Z0-9]{4,8}` -/
def plateFallbackShape (w : String) : Bool :=
  let cs := w.toList
  decide (4 ≤ cs.length) && decide (cs.length ≤ 8) &&
    cs.all (fun c => isUpperCh c || isDigitCh c)

/-- token of shape `B-[A-Z0-9]+` (exactly) -/
def isBlockIdTok (w : String) : Bool :=
  match w.toList with
  | 'B' :: '-' :: rest => !rest.isEmpty && rest.all (fun c => isUpperCh c || isDigitCh c)
  | _ => false

/-- a line contains the pattern `B-[A-Z0-9]+` somewhere -/
def hasBlockTokGo : List Char → Bool
  | 'B' :: '-' :: c :: cs => (isUpperCh c || isDigitCh c) || hasBlockTokGo ('-' :: c :: cs)
  | _ :: cs => hasBlockTokGo cs
  | [] => false

def hasBlockTok (s : String) : Bool := hasBlockTokGo s.toList

/-- count the non-overlapping matches of `B-[A-Z0-9]+` (for `re.findall`) -/
def countBlockIdsGo : Nat → List Char → Nat
  | 0, _ => 0
  | _ + 1, [] => 0
  | n + 1, 'B' :: '-' :: c :: cs =>
    if isUpperCh c || isDigitCh c then
      1 + countBlockIdsGo n ((c :: cs).dropWhile (fun d => isUpperCh d || isDigitCh d))
    else countBlockIdsGo n ('-' :: c :: cs)
  | n + 1, _ :: cs => countBlockIdsGo n cs

def countBlockIds (s : String) : Nat := countBlockIdsGo s.length s.toList

/-- token of shape `[A-Z][a-z]+` (exactly): one capital then lowercase letters -/
def isNameTok (w : String) : Bool :=
  match w.toList with
  | c :: rest => isUpperCh c && !rest.isEmpty && rest.all isLowerCh
  | [] => false

/-- the prefix of a token matching `[A-Z]{2,3}\d{3,6}` (greedy, no trailing
word boundary required), as used when a pattern ends at the plate digits -/
def plateStartTokUC (w : String) : Option String :=
  let cs := w.toList
  let al := cs.takeWhile isUpperCh
  if al.length < 2 || 3 < al.length then none
  else
    let ds := (cs.drop al.length).takeWhile isDigitCh
    if ds.length < 3 then none
    else some (String.mk (al ++ ds.take 6))

/-- all matches of `([A-Z][a-z]+)` in a string (no word boundary): a capital
letter followed by a maximal nonempty run of lowercase letters -/
def capLowerWordsGo : Nat → List Char → List String
  | 0, _ => []
  | _ + 1, [] => []
  | n + 1, c :: cs =>
    if isUpperCh c && (cs.headD ' ' |> isLowerCh) then
      let lo := cs.takeWhile isLowerCh
      String.mk (c :: lo) :: capLowerWordsGo n (cs.drop lo.length)
    else capLowerWordsGo n cs

def capLowerWords (s : String) : List String := capLowerWordsGo s.length s.toList

/-- exact word run of shape `[A-Z][a-z]{2,}` (for `\b([A-Z][a-z]{2,})\b`) -/
def isNameTok3 (w : String) : Bool :=
  match w.toList with
  | c :: rest => isUpperCh c && decide (2 ≤ rest.length) && rest.all isLowerCh
  | [] => false

/-! ## Program data model -/

/-- the identifier whitelist from `pdf_parser.VALID_LICENSE_PLATES` -/
def VALID_LICENSE_PLATES : List String := ["VW9327", "VW9328", "VW1503", "VV9952"]

/-- canonical expense categories (`expense_categories` dictionary) -/
structure Cats where
  fuel : ℚ := 0
  dispatch_fee : ℚ := 0
  insurance : ℚ := 0
  safety : ℚ := 0
  prepass : ℚ := 0
  ifta : ℚ := 0
  driver_pay : ℚ := 0
  payroll_fee : ℚ := 0
  truck_parking : ℚ := 0
  service_on_truck : ℚ := 0
  custom : ℚ := 0
  reimbursement : ℚ := 0
deriving DecidableEq

/-- the per-settlement dictionary built by both parsers -/
structure SettleData where
  gross_revenue : Option ℚ := none
  net_profit : Option ℚ := none
  expenses : Option ℚ := none
  expense_categories : Cats := {}
  miles_driven : Option ℚ := none
  blocks_delivered : Option ℕ := none
  license_plate : Option String := none
  driver_name : Option String := none
deriving DecidableEq

/-- per-plate accumulator of the multi-truck allocator (`plate_data`) -/
structure PlateAcc where
  gross : ℚ := 0
  driverPay : ℚ := 0
  fuel : ℚ := 0
  reimb : ℚ := 0
  blocks : ℕ := 0
  driverName : Option String := none
deriving DecidableEq

abbrev PlateData := List (String × PlateAcc)

def pdLookup (pd : PlateData) (p : String) : PlateAcc :=
  ((pd.find? (fun e => e.1 = p)).map Prod.snd).getD {}

def pdHas (pd : PlateData) (p : String) : Bool := (pd.find? (fun e => e.1 = p)).isSome

def pdUpdate (pd : PlateData) (p : String) (f : PlateAcc → PlateAcc) : PlateData :=
  pd.map (fun e => if e.1 = p then (e.1, f e.2) else e)

/-! ## Plate-pattern scanners -/

def trimStr (s : String) : String :=
  String.mk ((s.toList.dropWhile isSpaceCh).reverse.dropWhile isSpaceCh).reverse

/-- match `[A-Za-z]{minA,maxA}\d{3,6}` at the head of the input followed by a
word boundary; returns the upper-cased match and the rest.  Mirrors the
backtracking of the greedy quantifiers: an alpha run longer than `maxA` or a
digit run longer than 6 leaves no boundary and the position fails. -/
def plateAtPosCI (minA maxA : Nat) (cs : List Char) : Option (String × List Char) :=
  let al := cs.takeWhile isAlphaCh
  if al.length < minA || maxA < al.length then none
  else
    let ds := (cs.drop al.length).takeWhile isDigitCh
    if ds.length < 3 || 6 < ds.length then none
    else
      let rest := cs.drop (al.length + ds.length)
      match rest with
      | [] => some (upStr (String.mk (al ++ ds)), [])
      | c :: _ => if isWordCh c then none else some (upStr (String.mk (al ++ ds)), rest)

/-- earliest position at which `plateAtPosCI` succeeds (the lazy `[^\n]*?`
before a group) -/
def lazyPlateFrom (minA maxA : Nat) : Nat → List Char → Option (String × List Char)
  | 0, _ => none
  | _ + 1, [] => none
  | n + 1, c :: cs =>
    match plateAtPosCI minA maxA (c :: cs) with
    | some r => some r
    | none => lazyPlateFrom minA maxA n cs

/-- all groups of `B-[A-Z0-9]+\s+[^\n]*?([A-Za-z]{minA,maxA}\d{3,6})\b`
(case-insensitive `re.findall`), scanning within a line -/
def blockLazyPlatesGo (minA maxA : Nat) : Nat → List Char → List String
  | 0, _ => []
  | _ + 1, [] => []
  | n + 1, c :: cs =>
    if (upCh c = 'B') then
      match cs with
      | '-' :: cs2 =>
        let run := cs2.takeWhile (fun d => isAlphaCh d || isDigitCh d)
        if run.isEmpty then blockLazyPlatesGo minA maxA n cs
        else
          let rest := cs2.drop run.length
          let sp := rest.takeWhile isSpaceCh
          if sp.isEmpty then blockLazyPlatesGo minA maxA n cs
          else
            match lazyPlateFrom minA maxA rest.length (rest.drop sp.length) with
            | some (p, after) => p :: blockLazyPlatesGo minA maxA n after
            | none => blockLazyPlatesGo minA maxA n cs
      | _ => blockLazyPlatesGo minA maxA n cs
    else blockLazyPlatesGo minA maxA n cs

def blockLazyPlates (minA maxA : Nat) (line : String) : List String :=
  blockLazyPlatesGo minA maxA line.length line.toList

/-- the fragment of a line from its first `B-[A-Z0-9]+` match to the end of
the line (the `B-[A-Z0-9]+[^\n]*` pattern) -/
def blockFragmentGo : Nat → List Char → Option (List Char)
  | 0, _ => none
  | _ + 1, [] => none
  | n + 1, c :: cs =>
    if upCh c = 'B' then
      match cs with
      | '-' :: c2 :: _ =>
        if isAlphaCh c2 || isDigitCh c2 then some (c :: cs)
        else blockFragmentGo n cs
      | _ => blockFragmentGo n cs
    else blockFragmentGo n cs

def blockFragment (line : String) : Option String :=
  (blockFragmentGo line.length line.toList).map String.mk

/-- first match of `[Vv][Ww]\s*(\d{4})`: the reconstructed four digits -/
def corruptedVWGo : Nat → List Char → Option String
  | 0, _ => none
  | _ + 1, [] => none
  | n + 1, c :: cs =>
    (if c = 'V' || c = 'v' then
      match cs with
      | w :: cs2 =>
        if w = 'W' || w = 'w' then
          let cs3 := cs2.dropWhile isSpaceCh
          let ds := cs3.takeWhile isDigitCh
          if 4 ≤ ds.length then some (String.mk (ds.take 4)) else none
        else none
      | [] => none
    else none).orElse (fun _ => corruptedVWGo n cs)

def corruptedVW (s : String) : Option String := corruptedVWGo s.length s.toList

/-- all groups of `([A-Z][a-z]+)([A-Z]{2,3}\d{3,6})`: a plate glued directly
to a capitalised word (extraction noise) -/
def concatPlatesGo : Nat → List Char → List String
  | 0, _ => []
  | _ + 1, [] => []
  | n + 1, c :: cs =>
    if isUpperCh c && isLowerCh (cs.headD ' ') then
      let lo := cs.takeWhile isLowerCh
      let rest := cs.drop lo.length
      let al := rest.takeWhile isUpperCh
      if 2 ≤ al.length && al.length ≤ 3 then
        let ds := (rest.drop al.length).takeWhile isDigitCh
        if 3 ≤ ds.length then
          String.mk (al ++ ds.take 6) :: concatPlatesGo n (rest.drop (al.length + (ds.take 6).length))
        else concatPlatesGo n rest
      else concatPlatesGo n rest
    else concatPlatesGo n cs

def concatPlates (s : String) : List String := concatPlatesGo s.length s.toList

/-- the text captured by `Plate#:\s*([^\n]+)` (case-insensitive), stripped -/
def headerPlateText (text : String) : Option String :=
  (afterSubCI "Plate#:".toList text.toList).map (fun cs =>
    let rest := lineOf (cs.dropWhile isSpaceCh)
    trimStr (String.mk rest))

/-! ## Format classifier: `SettlementExtractor._detect_multiple_trucks` -/

/-- Method 1 of the classifier: distinct plausible identifiers on the
`Plate#:` header line (length at least 5; the whitelist is not consulted) -/
def detectHeaderPlates (text : String) : List String :=
  (match headerPlateText text with
   | some pt => ((wordRuns pt).filter (plateShapeCI 2)).map upStr
   | none => []).filter (fun p => decide (5 ≤ p.length))

/-- Methods 2/2b/4 of the classifier: identifiers adjacent to `B-` block
markers, including corrupted-OCR `VW` reconstruction -/
def detectBlockPlates (lines : List String) : List String :=
  (lines.map (fun l => blockLazyPlates 2 3 l)).flatten ++
  (lines.filterMap (fun l => (blockFragment l).bind corruptedVW)).map
    (fun d => "VW" ++ d) ++
  (lines.filterMap blockFragment).flatMap
    (fun frag => ((wordRuns frag).filter (plateShapeCI 2)).map upStr |>.filter
      (fun p => decide (5 ≤ p.length) && decide (p.length ≤ 8)))

/-- Method 3 of the classifier: identifiers concatenated with adjacent text -/
def detectConcatPlates (text : String) : List String :=
  (concatPlates text).map upStr |>.filter (fun p => decide (5 ≤ p.length))

def detectFalsePositives : List String :=
  ["IFTA", "PREPASS", "SAFETY", "INSURANCE", "DISPATCH", "PAYROLL"]

/-- all candidate identifiers pooled by the classifier, filtered as in the
source (length 5 to 8, not a known keyword, not a `#`-prefixed truck number,
member of the whitelist) -/
def detectValidPlates (lines : List String) : List String :=
  let text := joinLines lines
  let all := (detectHeaderPlates text ++ detectBlockPlates lines ++
    detectConcatPlates text).dedup
  all.filter (fun p =>
    decide (5 ≤ p.length) && decide (p.length ≤ 8) &&
    !(detectFalsePositives.contains p) && !(chPre ['#'] p.toList) &&
    VALID_LICENSE_PLATES.contains p)

/-- `SettlementExtractor._detect_multiple_trucks`: the header strategy alone
returns early when it yields two distinct candidates; otherwise the pooled,
whitelist-filtered candidates decide -/
def detect_multiple_trucks (lines : List String) : Bool :=
  let text := joinLines lines
  if 2 ≤ (detectHeaderPlates text).dedup.length then true
  else 2 ≤ (detectValidPlates lines).length

/-- `SettlementExtractor._detect_settlement_type` -/
def detect_settlement_type (lines : List String) : Option String :=
  let up := upStr (joinLines lines)
  if strContains up "NBM TRANSPORT" then some "NBM Transport LLC"
  else if strContains up "277 LOGISTICS" then some "277 Logistics"
  else if strContains up "OWNER OPERATOR INCOME SHEET" || strContains up "INCOME SHEET" then
    some "Owner Operator Income Sheet"
  else none

/-! ## Expense-category access -/

def catGet (c : Cats) (k : String) : ℚ :=
  if k = "fuel" then c.fuel
  else if k = "dispatch_fee" then c.dispatch_fee
  else if k = "insurance" then c.insurance
  else if k = "safety" then c.safety
  else if k = "prepass" then c.prepass
  else if k = "ifta" then c.ifta
  else if k = "driver_pay" then c.driver_pay
  else if k = "payroll_fee" then c.payroll_fee
  else if k = "truck_parking" then c.truck_parking
  else if k = "service_on_truck" then c.service_on_truck
  else if k = "custom" then c.custom
  else if k = "reimbursement" then c.reimbursement
  else 0

def catSet (c : Cats) (k : String) (v : ℚ) : Cats :=
  if k = "fuel" then { c with fuel := v }
  else if k = "dispatch_fee" then { c with dispatch_fee := v }
  else if k = "insurance" then { c with insurance := v }
  else if k = "safety" then { c with safety := v }
  else if k = "prepass" then { c with prepass := v }
  else if k = "ifta" then { c with ifta := v }
  else if k = "driver_pay" then { c with driver_pay := v }
  else if k = "payroll_fee" then { c with payroll_fee := v }
  else if k = "truck_parking" then { c with truck_parking := v }
  else if k = "service_on_truck" then { c with service_on_truck := v }
  else if k = "custom" then { c with custom := v }
  else if k = "reimbursement" then { c with reimbursement := v }
  else c

/-! ## Expense categorizer -/

def driversPayKw : String := "Driver" ++ apoStr ++ "s Pay"

def driversPayUC : String := "DRIVER" ++ apoStr ++ "S PAY"

/-- The derivation applied when a driver's-pay figure is found and the format
does not list pay and fee explicitly (pdf_parser lines 364-380, 406-421 and
429-446): with a payroll fee already recorded the figure is gross and the base
is `gross - fee`; otherwise `base = gross / 1.065` and `fee = base * 0.065`
(the fixed 6.5% rate).  Returns the updated categories and running total. -/
def applyDriverPayGross (amount : ℚ) (cats : Cats) (totalExp : ℚ) : Cats × ℚ :=
  if 0 < cats.payroll_fee then
    let base := amount - cats.payroll_fee
    ({ cats with driver_pay := base }, totalExp + base)
  else
    let base := amount / (1065 / 1000 : ℚ)
    let fee := base * (65 / 1000 : ℚ)
    ({ cats with driver_pay := base, payroll_fee := fee }, totalExp + fee + base)

/-- parse `\(\$\s*([\d,]+\.?\d*)\)` at the head of the input -/
def parenAt (cs : List Char) : Option (ℚ × List Char) :=
  match cs with
  | '(' :: '$' :: r =>
    let r2 := r.dropWhile isSpaceCh
    match parseMoneyAt r2 with
    | some (q, ')' :: rest) => some (q, rest)
    | _ => none
  | _ => none

/-- greedy `[^\n]*%\s*\(\$NUM\)`: the last percent sign followed by a
parenthesised amount; returns that amount and the input after its match -/
def pctParenGo : Nat → List Char → Option (ℚ × List Char) → Option (ℚ × List Char)
  | 0, _, acc => acc
  | _ + 1, [], acc => acc
  | n + 1, '%' :: cs, acc =>
    (match parenAt (cs.dropWhile isSpaceCh) with
     | some r => pctParenGo n cs (some r)
     | none => pctParenGo n cs acc)
  | n + 1, _ :: cs, acc => pctParenGo n cs acc

/-- `^DISPATCH[^\n]*FEE[^\n]*%\s*\(\$NUM\)[^\n]*\(\$NUM\)`, group 2 (the
payroll-fee amount on a combined dispatch-fee line) -/
def dispatchPctTwoParen (line : String) : Option ℚ :=
  if chPreCI "DISPATCH".toList line.toList then
    match afterSubCI "FEE".toList line.toList with
    | some rest =>
      match pctParenGo rest.length rest none with
      | some (_, after) => (parenAmounts (String.mk after)).getLast?
      | none => none
    | none => none
  else none

/-- `^DISPATCH[^\n]*FEE[^\n]*\(\$NUM\)`, the last parenthesised amount after
the fee marker -/
def anchoredDispatchParen (line : String) : Option ℚ :=
  if chPreCI "DISPATCH".toList line.toList then
    match afterSubCI "FEE".toList line.toList with
    | some rest => (parenAmounts (String.mk rest)).getLast?
    | none => none
  else none

/-- `^kw[^\n]*\(\$NUM\)` on a single line -/
def anchoredParen (kw : String) (line : String) : Option ℚ :=
  if chPreCI kw.toList line.toList then
    (parenAmounts (String.mk (line.toList.drop kw.length))).getLast?
  else none

/-- `PAYROLL[^\n]*FEE[^\n]*\(\$NUM\)` on a single line -/
def linePayrollFeeParen (line : String) : Option ℚ :=
  match afterSubCI "PAYROLL".toList line.toList with
  | some r1 =>
    match afterSubCI "FEE".toList r1 with
    | some r2 => (parenAmounts (String.mk r2)).getLast?
    | none => none
  | none => none

/-- `DISPATCH[^\n]*FEE[^\n]*%\s*\(\$NUM\)` over the whole text, group 1 (the
dispatch-fee amount preceding the payroll fee on a combined line) -/
def dispatchPctFirstParenGo : Nat → List Char → Option ℚ
  | 0, _ => none
  | _ + 1, [] => none
  | n + 1, c :: cs =>
    (if chPreCI "DISPATCH".toList (c :: cs) then
      match afterSubCI "FEE".toList (lineOf (c :: cs)) with
      | some rest =>
        match pctParenGo rest.length rest none with
        | some (q, _) => some q
        | none => none
      | none => none
    else none).orElse (fun _ => dispatchPctFirstParenGo n cs)

def dispatchPctFirstParen (text : String) : Option ℚ :=
  dispatchPctFirstParenGo text.length text.toList

/-- income-sheet expense mappings (pdf_parser lines 194-210), in order -/
def incomeMappings : List (String × (String → Option ℚ)) :=
  [("payroll_fee", dispatchPctTwoParen),
   ("payroll_fee", anchoredDispatchParen),
   ("fuel", anchoredParen "FUEL"),
   ("ifta", fun l => kwParen l "IFTA"),
   ("safety", fun l => kwParen l "SAFETY"),
   ("prepass", fun l => kwParen l "PREPASS"),
   ("insurance", fun l => kwParen l "INSURANCE"),
   ("driver_pay", fun l => kwParen l driversPayUC),
   ("payroll_fee", linePayrollFeeParen),
   ("service_on_truck", fun l => kwParen l "SERVICE ON THE TRUCK"),
   ("truck_parking", fun l => kwParen l "TRUCK PARKING")]

/-- paystub expense mappings (pdf_parser lines 213-227), in order -/
def fmt1Mappings : List (String × String) :=
  [("fuel", "Fuel"), ("ifta", "IFTA"), ("dispatch_fee", "Dispatch Fee"),
   ("safety", "Safety"), ("prepass", "Prepass"), ("insurance", "Insurance"),
   ("driver_pay", driversPayKw), ("driver_pay", driversPayKw ++ " Fee"),
   ("payroll_fee", "Payroll Fee"), ("payroll_fee", "Payroll"),
   ("service_on_truck", "Service on Truck"), ("truck_parking", "Truck Parking"),
   ("custom", "Deductions")]

/-- apply one matched amount for a category, with the double-count guard and
the driver's-pay gross derivation (loop body of lines 346-384/388-424) -/
def applyCat (k : String) (a : ℚ) (skip isExplicit : Bool) (st : Cats × ℚ) : Cats × ℚ :=
  if k = "driver_pay" && !skip && !isExplicit then applyDriverPayGross a st.1 st.2
  else (catSet st.1 k a, st.2 + a)

/-- per-line income-sheet categorization: the first matching mapping whose
category is still zero is applied, then the line is done -/
def incomeCatLine (line : String) (skip isExplicit : Bool) :
    List (String × (String → Option ℚ)) → Cats × ℚ → Cats × ℚ
  | [], st => st
  | (k, m) :: ms, st =>
    match m line with
    | some a => if catGet st.1 k = 0 then applyCat k a skip isExplicit st
                else incomeCatLine line skip isExplicit ms st
    | none => incomeCatLine line skip isExplicit ms st

def lineMentionsDriversPay (line : String) : Bool := strContainsCI line driversPayUC

def incomeCategorize (lines : List String) (skip isExplicit : Bool) (st : Cats × ℚ) : Cats × ℚ :=
  lines.foldl (fun st line =>
    if (skip && lineMentionsDriversPay line) || (isExplicit && lineMentionsDriversPay line) then st
    else incomeCatLine line skip isExplicit incomeMappings st) st

/-- paystub categorization: every mapping is searched over the whole text,
still-zero categories only -/
def fmt1Categorize (text : String) (skip isExplicit : Bool) (st : Cats × ℚ) : Cats × ℚ :=
  fmt1Mappings.foldl (fun st (km : String × String) =>
    match kwAmount text km.2 with
    | some a => if catGet st.1 km.1 = 0 then applyCat km.1 a skip isExplicit st else st
    | none => st) st

/-! ## Block-row driver's-pay scan (pdf_parser lines 232-290) -/

/-- look ahead up to two lines for a driver's-pay amount -/
def blockDPLookahead (lines : List String) (i : Nat) : Nat → ℚ
  | 0 => 0
  | fuelLeft + 1 =>
    let j := i
    if h : j < lines.length then
      let nl := lines.get ⟨j, h⟩
      if hasBlockTok nl then 0
      else
        match kwAmount nl driversPayKw with
        | none =>
          match (dollarAmounts nl).head? with
          | some a =>
            if 100 ≤ a ∧ a ≤ 50000 then a
            else blockDPLookahead lines (i + 1) fuelLeft
          | none => blockDPLookahead lines (i + 1) fuelLeft
        | some a =>
          if 100 ≤ a ∧ a ≤ 50000 then a
          else blockDPLookahead lines (i + 1) fuelLeft
    else 0

/-- sum the per-block driver's-pay figures over all block rows -/
def blockDriverPayGo (lines : List String) : Nat → Nat → ℚ
  | _, 0 => 0
  | i, fuel + 1 =>
    if h : i < lines.length then
      let line := lines.get ⟨i, h⟩
      let add :=
        if hasBlockTok line then
          let amts := dollarAmounts line
          match amts.get? 1 with
          | some a => if 100 ≤ a ∧ a ≤ 50000 then a else blockDPLookahead lines (i + 1) 2
          | none => blockDPLookahead lines (i + 1) 2
        else 0
      add + blockDriverPayGo lines (i + 1) fuel
    else 0

def blockDriverPayTotal (lines : List String) : ℚ :=
  blockDriverPayGo lines 0 lines.length

/-! ## Single-vehicle field extraction (`parse_amazon_relay_pdf`) -/

/-- `TRUCK#\s*:\s*(\d+)` (case-insensitive) -/
def truckNumGo : Nat → List Char → Option String
  | 0, _ => none
  | _ + 1, [] => none
  | n + 1, c :: cs =>
    (if chPreCI "TRUCK#".toList (c :: cs) then
      let r1 := ((c :: cs).drop 6).dropWhile isSpaceCh
      match r1 with
      | ':' :: r2 =>
        let r3 := r2.dropWhile isSpaceCh
        let ds := r3.takeWhile isDigitCh
        if ds.isEmpty then none else some (String.mk ds)
      | _ => none
    else none).orElse (fun _ => truckNumGo n cs)

def truckNumSearch (text : String) : Option String := truckNumGo text.length text.toList

/-- first word of shape `\b([A-Z]{1,3}\d{3,6})\b` (case-sensitive) in the text -/
def firstPlateTokUC1 (text : String) : Option String :=
  ((wordRuns text).filter (plateShapeUC 1)).head?

/-- the prefix of the input matching `[A-Z]{1,3}\d{3,6}` greedily (no
boundaries), with the rest -/
def plateStartAt1 (cs : List Char) : Option (String × List Char) :=
  let al := cs.takeWhile isUpperCh
  if al.length < 1 || 3 < al.length then none
  else
    let ds := (cs.drop al.length).takeWhile isDigitCh
    if ds.length < 3 then none
    else some (String.mk (al ++ ds.take 6), cs.drop (al.length + (ds.take 6).length))

/-- `([A-Z]{1,3}\d{3,6})\s*#(\d+)`: a plate immediately followed by a truck
number -/
def plateComboGo : Nat → List Char → Option String
  | 0, _ => none
  | _ + 1, [] => none
  | n + 1, c :: cs =>
    (match plateStartAt1 (c :: cs) with
     | some (p, rest) =>
       match rest.dropWhile isSpaceCh with
       | '#' :: r2 => if (r2.takeWhile isDigitCh).isEmpty then none else some p
       | _ => none
     | none => none).orElse (fun _ => plateComboGo n cs)

def plateCombo (text : String) : Option String := plateComboGo text.length text.toList

/-- license-plate extraction of the single-vehicle parser (lines 92-126).
No whitelist check is performed on this path. -/
def singlePlate (text : String) (isIncome : Bool) : Option String :=
  if isIncome then
    match truckNumSearch text with
    | some num =>
      match firstPlateTokUC1 text with
      | some p => some (upStr p)
      | none => some ("#" ++ num)
    | none =>
      match plateCombo text with
      | some p => some (upStr p)
      | none => (firstPlateTokUC1 text).map upStr
  else
    match headerPlateText text with
    | some pt =>
      let plates := (wordRuns pt).filter (plateShapeUC 1)
      match plates.getLast? with
      | some p => some (upStr p)
      | none =>
        match ((wordRuns pt).filter plateFallbackShape).getLast? with
        | some p => some (upStr p)
        | none => none
    | none => none

/-- lazy variant of `kwParenGo`: `kw[^\n]*?\(\$\s*NUM\)` selects the first
parenthesised amount after the marker on the same line -/
def kwParenFirstGo (kw : List Char) : Nat → List Char → Option ℚ
  | 0, _ => none
  | _ + 1, [] => none
  | n + 1, c :: cs =>
    (if chPreCI kw (c :: cs) then
      let rest := lineOf ((c :: cs).drop kw.length)
      (parenAmounts (String.mk rest)).head?
    else none).orElse (fun _ => kwParenFirstGo kw n cs)

/-- `SUMMARY GROSS[^\n]*?\(\$\s*NUM\)` (lazy: the first parenthesised amount
after the marker), with the loose `$`-amount fallback -/
def incomeGross (text : String) : Option ℚ :=
  match kwParenFirstGo "SUMMARY GROSS".toList text.length text.toList with
  | some q => some q
  | none => kwDollarLoose text "SUMMARY GROSS"

/-- `PAID TO DRIVER[^\n]*\(\$\s*NUM\)` with the loose fallback.  The source
pattern uses a greedy `[^\n]*`, selecting the last parenthesised amount. -/
def incomeNet (text : String) : Option ℚ :=
  match kwParen text "PAID TO DRIVER" with
  | some q => some q
  | none => kwDollarLoose text "PAID TO DRIVER"

/-! ## Blocks-delivered and miles extraction -/

def isRouteRun (r : List Char) : Bool :=
  decide (2 ≤ r.length) && decide (r.length ≤ 4) &&
    r.all (fun c => isUpperCh c || isDigitCh c)

/-- all matches of `\b([A-Z0-9]{2,4}-[A-Z0-9]{2,4})\b` -/
def routeCodesGo : Nat → List Char → List String
  | 0, _ => []
  | _ + 1, [] => []
  | n + 1, c :: cs =>
    if isWordCh c then
      let r1 := (c :: cs).takeWhile isWordCh
      let rest := (c :: cs).drop r1.length
      match rest with
      | '-' :: rest2 =>
        let r2 := rest2.takeWhile isWordCh
        if isRouteRun r1 && isRouteRun r2 then
          String.mk (r1 ++ '-' :: r2) :: routeCodesGo n (rest2.drop r2.length)
        else routeCodesGo n rest2
      | _ => routeCodesGo n rest
    else routeCodesGo n cs

/-- route codes must contain at least one letter (line 539) -/
def routeCodes (text : String) : List String :=
  (routeCodesGo text.length text.toList).filter (fun r => r.toList.any isUpperCh)

/-- a digit segment `\d{1,2}` followed by a separator character -/
def dateSeg (cs : List Char) (sep : Char) : Option (List Char × List Char) :=
  let ds := cs.takeWhile isDigitCh
  if 1 ≤ ds.length ∧ ds.length ≤ 2 then
    match cs.drop ds.length with
    | c :: rest => if c = sep then some (ds ++ [c], rest) else none
    | [] => none
  else none

/-- match `\d{1,2}/\d{1,2}-\d{1,2}/\d{1,2}/\d{4}` at the head (no word
boundaries); returns the matched characters and the rest -/
def dateRangeAt (cs : List Char) : Option (List Char × List Char) :=
  match dateSeg cs '/' with
  | some (m1, r1) =>
    match dateSeg r1 '-' with
    | some (m2, r2) =>
      match dateSeg r2 '/' with
      | some (m3, r3) =>
        match dateSeg r3 '/' with
        | some (m4, r4) =>
          let ds := r4.takeWhile isDigitCh
          if 4 ≤ ds.length then
            some (m1 ++ m2 ++ m3 ++ m4 ++ ds.take 4, r4.drop 4)
          else none
        | none => none
      | none => none
    | none => none
  | none => none

/-- all matches of `\b(\d{1,2}/\d{1,2}-\d{1,2}/\d{1,2}/\d{4})\b`: the match
must start at a word-run boundary and end before a non-word character -/
def dateRangesGo : Nat → List Char → List String
  | 0, _ => []
  | _ + 1, [] => []
  | n + 1, c :: cs =>
    if isWordCh c then
      match dateRangeAt (c :: cs) with
      | some (m, rest) =>
        if isWordCh (rest.headD ' ') then dateRangesGo n ((c :: cs).dropWhile isWordCh)
        else String.mk m :: dateRangesGo n rest
      | none => dateRangesGo n ((c :: cs).dropWhile isWordCh)
    else dateRangesGo n cs

def dateRanges (text : String) : List String := dateRangesGo text.length text.toList

/-- blocks-delivered for the income-sheet format (lines 532-556; the
pdfplumber table path is the out-of-scope PDF collaborator, so the text
fallbacks apply) -/
def incomeBlocks (text : String) : Option ℕ :=
  let pl := (routeCodes text ++ dateRanges text).dedup
  if pl.length ≠ 0 then some pl.length
  else
    let c := kwParenCount text driversPayUC
    if c ≠ 0 then some c else none

/-- `\d+\.?\d*` at the head of the input -/
def plainNumAt (cs : List Char) : Option ℚ :=
  let ds := cs.takeWhile isDigitCh
  if ds.isEmpty then none
  else
    let rest := cs.drop ds.length
    let fr := match rest with
      | '.' :: r => r.takeWhile isDigitCh
      | _ => []
    some ((natOfDigits ds : ℚ) + (natOfDigits fr : ℚ) / ((10 : ℚ) ^ fr.length))

/-- `\s+(\d+\.?\d*)\s+\(\$` scanning for the earliest match (the lazy
`[^\n]*?` of the table-row miles pattern) -/
def milesTailGo : Nat → List Char → Option ℚ
  | 0, _ => none
  | _ + 1, [] => none
  | n + 1, c :: cs =>
    (if isSpaceCh c then
      let r1 := cs.dropWhile isSpaceCh
      match plainNumAt r1 with
      | some q =>
        let ds := r1.takeWhile (fun d => isDigitCh d || d = '.')
        let r2 := r1.drop ds.length
        let sp := r2.takeWhile isSpaceCh
        if sp.isEmpty then none
        else
          match r2.drop sp.length with
          | '(' :: '$' :: _ => some q
          | _ => none
      | none => none
    else none).orElse (fun _ => milesTailGo n cs)

/-- the table-row miles pattern
`\d{1,2}/\d{1,2}-\d{1,2}/\d{1,2}/\d{4}[^\n]*?\s+(\d+\.?\d*)\s+\(\$` -/
def tableRowMilesGo : Nat → List Char → Option ℚ
  | 0, _ => none
  | _ + 1, [] => none
  | n + 1, c :: cs =>
    (match dateRangeAt (c :: cs) with
     | some (_, rest) => milesTailGo rest.length (lineOf rest)
     | none => none).orElse (fun _ => tableRowMilesGo n cs)

/-- `LOAD MILES\s+([\d,]+\.?\d*)` (no dollar sign) -/
def loadMilesGo : Nat → List Char → Option ℚ
  | 0, _ => none
  | _ + 1, [] => none
  | n + 1, c :: cs =>
    (if chPreCI "LOAD MILES".toList (c :: cs) then
      let rest := (c :: cs).drop 10
      let sp := rest.takeWhile isSpaceCh
      if sp.isEmpty then none
      else
        match parseMoneyAt (rest.drop sp.length) with
        | some (q, _) => some q
        | none => none
    else none).orElse (fun _ => loadMilesGo n cs)

def incomeMiles (text : String) : Option ℚ :=
  match tableRowMilesGo text.length text.toList with
  | some q => some q
  | none => loadMilesGo text.length text.toList

/-! ## The single-vehicle parser -/

/-- format detection (line 59): the income-sheet markers, searched
case-sensitively -/
def isIncomeSheet (text : String) : Bool :=
  strContains text "OWNER OPERATOR INCOME SHEET" || strContains text "INCOME SHEET"

/-- paystub blocks-delivered (lines 558-561): the number of `B-` block
identifiers when any are present, otherwise unset -/
def fmt1Blocks (text : String) : Option ℕ :=
  let c := countBlockIds text
  if c ≠ 0 then some c else none

/-- explicit driver's-pay and fee rows for NBM Transport LLC / 277 Logistics
(lines 309-329) -/
def nbmExplicitApply (text : String) (st : Cats × ℚ) : Cats × ℚ :=
  let dpm := match kwParen text driversPayUC with
    | some q => some q
    | none => kwAmount text driversPayKw
  let dpfm := match kwParen text (driversPayUC ++ " FEE") with
    | some q => some q
    | none => kwAmount text (driversPayKw ++ " Fee")
  let st1 := match dpm with
    | some a => ({ st.1 with driver_pay := a }, st.2 + a)
    | none => st
  match dpfm with
  | some f => ({ st1.1 with payroll_fee := f }, st1.2 + f)
  | none => st1

/-- separate catch for a driver's-pay row the paystub loop missed
(lines 426-446) -/
def fmt1DriverPayCatch (text : String) (skip isExplicit : Bool) (st : Cats × ℚ) : Cats × ℚ :=
  if st.1.driver_pay = 0 && !skip && !isExplicit then
    match kwAmount text driversPayKw with
    | some a => applyDriverPayGross a st.1 st.2
    | none => st
  else st

/-- separate `Payroll Fee` catch (lines 448-454) -/
def payrollSeparate (text : String) (st : Cats × ℚ) : Cats × ℚ :=
  match payrollFeeLoose text with
  | some a =>
    if st.1.payroll_fee = 0 then
      ({ st.1 with payroll_fee := st.1.payroll_fee + a }, st.2 + a)
    else st
  | none => st

/-- explicit dispatch-fee extraction (lines 459-467); runs only when gross
revenue is truthy -/
def dispatchSeparate (text : String) (gross : Option ℚ) (st : Cats × ℚ) : Cats × ℚ :=
  if st.1.dispatch_fee = 0 && gross.getD 0 ≠ 0 then
    match dispatchPctFirstParen text with
    | some a => ({ st.1 with dispatch_fee := a }, st.2 + a)
    | none => st
  else st

/-- `parse_amazon_relay_pdf`: the single-vehicle parser.  Dates and the
driver-name heuristics are omitted (no claim concerns them); every other
field follows the source.  Note that this path performs no whitelist check
on the extracted license plate. -/
def parse_amazon_relay_pdf (lines : List String) (stype : Option String) : SettleData :=
  let text := joinLines lines
  let isIncome := isIncomeSheet text
  let lic := singlePlate text isIncome
  let gross := if isIncome then incomeGross text else kwAmount text "Gross Pay"
  let net0 := if isIncome then incomeNet text else kwAmount text "Net Pay"
  let blockDP := blockDriverPayTotal lines
  let skip := decide (0 < blockDP)
  let st0 : Cats × ℚ :=
    if 0 < blockDP then
      ({ driver_pay := blockDP, payroll_fee := blockDP * (65 / 1000 : ℚ) },
        blockDP + blockDP * (65 / 1000 : ℚ))
    else ({}, 0)
  let stypeU := (stype.map upStr).getD ""
  let isExplicit := stypeU = "NBM TRANSPORT LLC" || stypeU = "277 LOGISTICS"
  let st1 := if isExplicit && !skip then nbmExplicitApply text st0 else st0
  let st2 := if isIncome then incomeCategorize lines skip isExplicit st1
             else fmt1Categorize text skip isExplicit st1
  let st3 := if !isIncome then fmt1DriverPayCatch text skip isExplicit st2 else st2
  let st4 := payrollSeparate text st3
  let st5 := dispatchSeparate text gross st4
  let cats := st5.1
  let texp := st5.2
  let grossV := gross.getD 0
  let netV := net0.getD 0
  let expenses : Option ℚ :=
    if 0 < texp then some texp
    else if grossV ≠ 0 ∧ netV ≠ 0 then some (grossV - netV)
    else none
  let cats2 :=
    if 0 < texp then cats
    else if grossV ≠ 0 ∧ netV ≠ 0 then
      (if texp = 0 then { cats with custom := grossV - netV } else cats)
    else cats
  let blocks := if isIncome then incomeBlocks text else fmt1Blocks text
  let miles := if isIncome then incomeMiles text else none
  let net : Option ℚ :=
    match net0 with
    | some n => some n
    | none =>
      match gross, expenses with
      | some g, some e => some (g - e)
      | _, _ => none
  { gross_revenue := gross, net_profit := net, expenses := expenses,
    expense_categories := cats2, miles_driven := miles,
    blocks_delivered := blocks, license_plate := lic }

/-! ## Multi-truck block attribution (`parse_amazon_relay_pdf_multi_truck`) -/

/-- name tokens rejected as driver names (lines 857, 980-981) -/
def nameStoplist : List String :=
  ["driver", "pay", "fee", "fuel", "safety", "prepass", "insurance", "ifta"]

def nameStoplist2 : List String := nameStoplist ++ ["b", "block"]

def lowerStr (s : String) : String :=
  String.mk (s.toList.map (fun c => if isUpperCh c then Char.ofNat (c.toNat + 32) else c))

/-- Method 1 (line 853): `B-[A-Z0-9]+\s+([A-Z][a-z]+(?:\s+[A-Z][a-z]+)*)\s+([A-Z]{2,3}\d{3,6})`
on whitespace-separated tokens -/
def namePlateGo (acc : List String) : List String → Option (String × String)
  | [] => none
  | w :: ws =>
    if isNameTok w then namePlateGo (w :: acc) ws
    else if acc.isEmpty then none
    else
      match plateStartTokUC w with
      | some p => some (String.intercalate " " acc.reverse, p)
      | none => none

def method1Go : List String → Option (String × String)
  | [] => none
  | w :: ws =>
    if isBlockIdTok w then
      match namePlateGo [] ws with
      | some r => some r
      | none => method1Go ws
    else method1Go ws

/-- Method 1 result: the plate and the driver name unless it is a stoplisted
token (lines 853-860) -/
def method1Match (line : String) : Option (String × Option String) :=
  (method1Go (spaceToks line)).map (fun r =>
    (r.2, if nameStoplist.contains (lowerStr r.1) then none else some r.1))

/-- first index of `pre\s*num` (case-insensitive), the exact header-plate
pattern of Method 2 (line 871-872) -/
def m2ExactIdxGo (pre num : List Char) : Nat → Nat → List Char → Option Nat
  | 0, _, _ => none
  | _ + 1, _, [] => none
  | n + 1, idx, c :: cs =>
    (if chPreCI pre (c :: cs) then
      let rest := ((c :: cs).drop pre.length).dropWhile isSpaceCh
      if chPreCI num rest then some idx else none
    else none).orElse (fun _ => m2ExactIdxGo pre num n (idx + 1) cs)

def m2ExactIdx (hp : String) (line : String) : Option Nat :=
  m2ExactIdxGo (hp.toList.take 2) (hp.toList.drop 2) line.length 0 line.toList

/-- does `p0[a-zA-Z]{0,3}p1` (case-insensitive) occur in the window
(the corrupted prefix check of lines 900-908) -/
def prefixLooseIn (p0 p1 : Char) (cs : List Char) : Bool :=
  (List.range cs.length).any (fun j =>
    upCh (cs.getD j ' ') = upCh p0 &&
      (List.range 4).any (fun m =>
        ((cs.drop (j + 1)).take m).all isAlphaCh &&
          upCh (cs.getD (j + 1 + m) ' ') = upCh p1))

/-- does `[Vv][Ww]`-style adjacent prefix occur (lines 935-940, 957-962);
returns the first index, treating the optional leading `[A-Z]?` as consumed
when present -/
def prefixTightIdxGo (p0 p1 : Char) : Nat → Nat → List Char → Option Nat
  | 0, _, _ => none
  | _ + 1, _, [] => none
  | n + 1, idx, c :: cs =>
    (if isAlphaCh c && upCh (cs.getD 0 ' ') = upCh p0 && upCh (cs.getD 1 ' ') = upCh p1 then
      some idx
    else if upCh c = upCh p0 && upCh (cs.getD 0 ' ') = upCh p1 then some idx
    else none).orElse (fun _ => prefixTightIdxGo p0 p1 n (idx + 1) cs)

def prefixTightIdx (p0 p1 : Char) (cs : List Char) : Option Nat :=
  prefixTightIdxGo p0 p1 cs.length 0 cs

def noSlashDash (cs : List Char) : Bool := cs.all (fun c => c ≠ '/' && c ≠ '-')

/-- corrupted-OCR match of a header plate's number in a line
(lines 878-921): `first_digit[0-9a-z]{0,3}last_two` with a plate-prefix
fragment in the preceding window and no date characters in context.
Returns the match start index. -/
def m2CorruptIdx (hp : String) (line : String) : Option Nat :=
  let cs := line.toList
  let num := hp.toList.drop 2
  let fd := num.headD ' '
  let lastTwo := num.drop (num.length - 2)
  let p0 := hp.toList.getD 0 ' '
  let p1 := hp.toList.getD 1 ' '
  (List.range cs.length).findSome? (fun i =>
    if cs.getD i ' ' = fd then
      (([3, 2, 1, 0] : List Nat).findSome? (fun k =>
        if ((cs.drop (i + 1)).take k).length = k ∧
            ((cs.drop (i + 1)).take k).all (fun c => isDigitCh c || isAlphaCh c) ∧
            chPre lastTwo (cs.drop (i + 1 + k)) then
          let e := i + 1 + k + 2
          let before := (cs.take i).drop (i - 20)
          let context := ((cs.take (e + 3)).drop (i - 3))
          if prefixLooseIn p0 p1 before && noSlashDash context then some i else none
        else none))
    else none)

/-- the non-overlapping `(\d{4})` matches of `re.finditer` with their start
indices -/
def fourDigitIdxGo : Nat → Nat → List Char → List (Nat × String)
  | 0, _, _ => []
  | _ + 1, _, [] => []
  | n + 1, idx, c :: cs =>
    if isDigitCh c then
      let run := (c :: cs).takeWhile isDigitCh
      if 4 ≤ run.length then
        (idx, String.mk (run.take 4)) ::
          fourDigitIdxGo n (idx + 4) ((c :: cs).drop 4)
      else fourDigitIdxGo n (idx + run.length) ((c :: cs).drop run.length)
    else fourDigitIdxGo n (idx + 1) cs

/-- clean plate-number match (lines 922-943): a standalone occurrence of the
header plate's four digits with the two-letter prefix nearby before it -/
def m2NumberIdx (hp : String) (line : String) : Option Nat :=
  let cs := line.toList
  let num := String.mk (hp.toList.drop 2)
  let p0 := hp.toList.getD 0 ' '
  let p1 := hp.toList.getD 1 ' '
  (fourDigitIdxGo cs.length 0 cs).findSome? (fun m =>
    if m.2 = num then
      let context := (cs.take (m.1 + 4 + 3)).drop (m.1 - 3)
      if noSlashDash context then
        let before := (cs.take m.1).drop (m.1 - 15)
        if prefixTightIdx p0 p1 before |>.isSome then some m.1 else none
      else none
    else none)

/-- Method 2 for one header plate: the exact pattern, then corrupted OCR,
then the clean number (lines 866-943).  Returns the match start. -/
def m2TryPlate (hp : String) (line : String) : Option Nat :=
  match m2ExactIdx hp line with
  | some i => some i
  | none =>
    if 5 ≤ hp.length ∧ 4 ≤ hp.length - 2 then
      match m2CorruptIdx hp line with
      | some i => some i
      | none => m2NumberIdx hp line
    else none

/-- driver-name extraction after a Method 2 match (lines 944-986) -/
def m2Name (hp : String) (line : String) (ps0 : Nat) : Option String :=
  let cs := line.toList
  let p0 := hp.toList.getD 0 ' '
  let p1 := hp.toList.getD 1 ' '
  let ps :=
    if (m2ExactIdx hp line).isSome then ps0
    else
      let before := (cs.take ps0).drop (ps0 - 15)
      match prefixTightIdx p0 p1 before with
      | some j => ps0 - before.length + j
      | none => ps0
  let nameText := trimStr (String.mk (cs.take ps))
  if decide (20 < ps) && (nameText.toList.drop (nameText.length - 10)).any (fun c => c = ' ') then
    let ws := ((wordRuns nameText).filter isNameTok3).filter
      (fun w => !(nameStoplist2.contains (lowerStr w)))
    match ws with
    | [] => none
    | _ =>
      if 2 ≤ ws.length then
        some (String.intercalate " " (ws.drop (ws.length - 2)))
      else ws.getLast?
  else none

/-- Method 2 over the header plates in order (lines 862-987) -/
def method2Match (headerPlates : List String) (line : String) :
    Option (String × Option String) :=
  headerPlates.findSome? (fun hp =>
    (m2TryPlate hp line).map (fun i => (hp, m2Name hp line i)))

/-- first glue point of `([A-Z][a-z]+...)([A-Z]{2,3}\d{3,6})` with its
position (for the concatenated-plate method, lines 991-1015) -/
def concatGlueGo : Nat → Nat → List Char → Option (String × Nat)
  | 0, _, _ => none
  | _ + 1, _, [] => none
  | n + 1, idx, c :: cs =>
    if isUpperCh c && isLowerCh (cs.headD ' ') then
      let lo := cs.takeWhile isLowerCh
      let rest := cs.drop lo.length
      let al := rest.takeWhile isUpperCh
      if 2 ≤ al.length && al.length ≤ 3 then
        let ds := (rest.drop al.length).takeWhile isDigitCh
        if 3 ≤ ds.length then
          some (String.mk (al ++ ds.take 6), idx + 1 + lo.length)
        else concatGlueGo n (idx + 1 + lo.length) rest
      else concatGlueGo n (idx + 1 + lo.length) rest
    else concatGlueGo n (idx + 1) cs

/-- the concatenated name-plate method (lines 991-1015) -/
def concatMatch (validPlates : List String) (line : String) :
    Option (String × Option String) :=
  match concatGlueGo line.length 0 line.toList with
  | some (p, pos) =>
    let plate := upStr p
    let nameWords := capLowerWords (String.mk (line.toList.take pos))
    let nm :=
      if 2 ≤ nameWords.length then
        some (String.intercalate " " (nameWords.drop (nameWords.length - 2)))
      else nameWords.getLast?
    if validPlates.contains plate then some (plate, nm)
    else
      if 5 ≤ plate.length ∧ (plate.toList.take 2).all isAlphaCh ∧
          (plate.toList.drop 2).all isDigitCh then
        some (plate, nm)
      else none
  | none => none

/-- Method 3: a standalone plate-shaped word, else corrupted `VW` digits
(lines 1021-1042).  The reconstruction may fail the membership test while
still yielding a driver name. -/
def method3Match (validPlates : List String) (line : String) :
    Option String × Option String :=
  match ((wordRuns line).filter (plateShapeCI 2)).head? with
  | some p => (some (upStr p), none)
  | none =>
    match corruptedVW line with
    | some d =>
      let plate := "VW" ++ d
      let nameWords := capLowerWords line
      let nm :=
        if 2 ≤ nameWords.length then
          some (String.intercalate " " (nameWords.drop (nameWords.length - 2)))
        else nameWords.getLast?
      (if validPlates.contains plate then some plate else none, nm)
    | none => (none, none)

/-- full plate resolution for one block row (lines 848-1042): clean
name-plate row, header-plate matching with corruption recovery, concatenated
plate, standalone plate -/
def resolvePlate (headerPlates validPlates : List String) (line : String) :
    Option String × Option String :=
  match method1Match line with
  | some (p, nm) => (some p, nm)
  | none =>
    let m2 := if headerPlates.isEmpty then none else method2Match headerPlates line
    match m2 with
    | some (p, nm) => (some p, nm)
    | none =>
      match concatMatch validPlates line with
      | some (p, nm) => (some p, nm)
      | none => method3Match validPlates line

/-! ## Multi-truck scanner state updates -/

/-- leading-letter normalization before the whitelist check (lines 1047-1052) -/
def normalizeLead (plate : String) : String :=
  if 6 < plate.length ∧ plate.toList.headD ' ' ≠ 'V' then
    let tail1 := String.mk (plate.toList.drop 1)
    if (chPre "VW".toList tail1.toList ∨ chPre "VV".toList tail1.toList) ∧
        VALID_LICENSE_PLATES.contains tail1 then tail1
    else plate
  else plate

/-- the fixed identifier-correction table (lines 738-742) -/
def plate_corrections (plate : String) : String :=
  if plate = "VW9237" then "VW9327"
  else if plate = "NVW9328" then "VW9327"
  else if plate = "VV4342" then "VV9952"
  else plate

def hammingEq1 (a b : String) : Bool :=
  decide (((a.toList.zip b.toList).filter (fun p => p.1 ≠ p.2)).length = 1)

/-- one-digit-difference merge onto an existing accumulator key
(lines 1066-1078) -/
def similarMerge (pd : PlateData) (plate : String) : String :=
  if !pdHas pd plate ∧ plate.length = 6 ∧
      (chPre "VW".toList plate.toList ∨ chPre "VV".toList plate.toList) then
    match pd.find? (fun e =>
        e.1.length = 6 && chPre (plate.toList.take 2) e.1.toList &&
          hammingEq1 plate e.1) with
    | some e => e.1
    | none => plate
  else plate

/-- `^(Gross Pay|Driver|Fuel|Safety|Prepass|Insurance|IFTA|Dispatch)` -/
def summaryStart (line : String) : Bool :=
  (["Gross Pay", "Driver", "Fuel", "Safety", "Prepass", "Insurance", "IFTA",
    "Dispatch"]).any (fun kw => chPreCI kw.toList line.toList)

/-- `\d{1,2}/\d{1,2}/\d{4}\s+\d{1,2}:\d{2}:\d{2}\s+\$NUM` at the head -/
def dateTimeDollarAt (cs : List Char) : Option ℚ :=
  match dateSeg cs '/' with
  | some (_, r1) =>
    match dateSeg r1 '/' with
    | some (_, r2) =>
      let y := r2.takeWhile isDigitCh
      if 4 ≤ y.length then
        let r3 := r2.drop 4
        let sp1 := r3.takeWhile isSpaceCh
        if sp1.isEmpty then none
        else
          match dateSeg (r3.drop sp1.length) ':' with
          | some (_, r4) =>
            if 2 ≤ (r4.takeWhile isDigitCh).length ∧ r4.getD 2 ' ' = ':' then
              let r5 := r4.drop 3
              if 2 ≤ (r5.takeWhile isDigitCh).length then
                let r6 := r5.drop 2
                let sp2 := r6.takeWhile isSpaceCh
                if sp2.isEmpty then none
                else
                  match r6.drop sp2.length with
                  | '$' :: r7 => (parseMoneyAt r7).map Prod.fst
                  | _ => none
              else none
            else none
          | none => none
      else none
    | none => none
  | none => none

def dateTimeDollarGo : Nat → List Char → Option ℚ
  | 0, _ => none
  | _ + 1, [] => none
  | n + 1, c :: cs =>
    match dateTimeDollarAt (c :: cs) with
    | some q => some q
    | none => dateTimeDollarGo n cs

def dateTimeDollarIn (line : String) : Option ℚ :=
  dateTimeDollarGo line.length line.toList

/-- the fuel lookahead over following lines (lines 1121-1149 and 1209-1237):
returns the fuel amount found (if any) and the final scan index -/
def fuelLookahead (lines : List String) (limit : Nat) (fuelFound : Bool) :
    Nat → Nat → ℚ × Nat
  | _, 0 => (0, limit)
  | j, fuelB + 1 =>
    if h : j < lines.length then
      if limit ≤ j then (0, j)
      else
        let nl := lines.get ⟨j, h⟩
        if hasBlockTok nl || summaryStart nl then (0, j)
        else
          match dateTimeDollarIn nl with
          | some a => (a, j)
          | none =>
            match (dollarAmounts nl).head? with
            | some a =>
              if ¬fuelFound ∧ a < 10000 ∧ 0 < a then (a, j)
              else fuelLookahead lines limit fuelFound (j + 1) fuelB
            | none => fuelLookahead lines limit fuelFound (j + 1) fuelB
    else (0, j)

/-- the amount/fuel deltas a block row contributes (lines 1086-1149), shared
by the matched-plate and fallback branches -/
def blockRowDeltas (lines : List String) (i : Nat) (line : String) :
    (ℚ × ℕ × ℚ × ℚ) × Nat :=
  let amts := dollarAmounts line
  let dg := (amts.head?).getD 0
  let db : ℕ := if amts.isEmpty then 0 else 1
  let ddp := (amts.get? 1).getD 0
  let sameLineFuel :=
    match dateTimeDollarIn line with
    | some a => some a
    | none =>
      match amts.get? 3 with
      | some a => if a < 10000 then some a else none
      | none => none
  let fuelFound0 := sameLineFuel.isSome
  let la := fuelLookahead lines (i + 5) fuelFound0 (i + 1) 4
  ((dg, db, ddp, sameLineFuel.getD 0 + la.1), la.2)

def addDeltas (d : ℚ × ℕ × ℚ × ℚ) (a : PlateAcc) : PlateAcc :=
  { a with gross := a.gross + d.1, blocks := a.blocks + d.2.1,
           driverPay := a.driverPay + d.2.2.1, fuel := a.fuel + d.2.2.2 }

def updName (pd : PlateData) (p : String) (nm : Option String) : PlateData :=
  match nm with
  | some n =>
    if 2 < n.length then
      pdUpdate pd p (fun a =>
        match a.driverName with
        | none => { a with driverName := some n }
        | some _ => a)
    else pd
  | none => pd

/-- driver-name based fallback assignment (lines 1160-1171) -/
def byNameLookup (pd : PlateData) (nm : Option String) : Option String :=
  match nm with
  | some n =>
    if 2 < n.length then
      (pd.find? (fun e =>
        match e.2.driverName with
        | some dn => strContainsCI dn n
        | none => false)).map Prod.fst
    else none
  | none => none

/-- one iteration of the block-row loop for the line at index `i`
(lines 846-1238): resolve the plate, normalise/correct it, enforce the
whitelist, merge one-digit OCR twins, and accumulate the row's amounts.
Returns the new state and the next line index. -/
def scanStep (lines : List String) (headerPlates validPlates : List String)
    (i : Nat) (line : String) (pd : PlateData) : PlateData × Nat :=
  if hasBlockTok line then
    match resolvePlate headerPlates validPlates line with
    | (some plate0, nm) =>
      let plate1 := plate_corrections (normalizeLead (upStr plate0))
      if VALID_LICENSE_PLATES.contains plate1 then
        let plate := similarMerge pd plate1
        if pdHas pd plate then
          let pd1 := updName pd plate nm
          let d := blockRowDeltas lines i line
          let pd2 := pdUpdate pd1 plate (addDeltas d.1)
          let nexti := if i + 1 < d.2 then d.2 else i + 1
          (pd2, nexti)
        else (pd, i + 1)
      else (pd, i + 1)
    | (none, nm) =>
      let amts := dollarAmounts line
      if !amts.isEmpty ∧ !validPlates.isEmpty then
        let assigned := (byNameLookup pd nm).getD (validPlates.headD "")
        if pdHas pd assigned then
          let d := blockRowDeltas lines i line
          let pd1 := pdUpdate pd assigned (addDeltas d.1)
          let pd2 := updName pd1 assigned nm
          (pd2, i + 1)
        else (pd, i + 1)
      else (pd, i + 1)
  else (pd, i + 1)

/-- process the block rows of the document, accumulating per-plate revenue,
driver pay, fuel and block counts (the main loop, lines 842-1238) -/
def scanBlocksGo (lines : List String) (headerPlates validPlates : List String) :
    Nat → Nat → PlateData → PlateData
  | _, 0, pd => pd
  | i, fuelB + 1, pd =>
    if h : i < lines.length then
      let r := scanStep lines headerPlates validPlates i (lines.get ⟨i, h⟩) pd
      scanBlocksGo lines headerPlates validPlates r.2 fuelB r.1
    else pd

def scanBlocks (lines : List String) (headerPlates validPlates : List String) :
    PlateData :=
  scanBlocksGo lines headerPlates validPlates 0 lines.length
    (validPlates.map (fun p => (p, ({} : PlateAcc))))

/-! ## Multi-truck shared totals and plate sets -/

/-- `kw\$\s*NUM`: amount glued to the keyword (reimbursement variants) -/
def kwDollarTightGo (kw : List Char) : Nat → List Char → Option ℚ
  | 0, _ => none
  | _ + 1, [] => none
  | n + 1, c :: cs =>
    (if chPreCI kw (c :: cs) then
      match (c :: cs).drop kw.length with
      | '$' :: r => (parseMoneyAt (r.dropWhile isSpaceCh)).map Prod.fst
      | _ => none
    else none).orElse (fun _ => kwDollarTightGo kw n cs)

def kwDollarTight (text : String) (kw : String) : Option ℚ :=
  kwDollarTightGo kw.toList text.length text.toList

/-- reimbursement total, trying the four source patterns in order
(lines 810-825) -/
def reimbTotalOf (text : String) : ℚ :=
  match kwAmount text "Reimbursement" with
  | some q => q
  | none =>
    match kwDollarTight text "Reimbursement" with
    | some q => q
    | none =>
      match kwAmount text "Reimbursment" with
      | some q => q
      | none => (kwDollarTight text "Reimbursment").getD 0

/-- deductions total with the alternative patterns (lines 782-797) -/
def deductionsOf (text : String) : ℚ :=
  let d0 := (kwAmount text "Deductions").getD 0
  if d0 = 0 then
    match kwAmount text "Other Deductions" with
    | some q => q
    | none =>
      match kwAmount text "Additional Deductions" with
      | some q => q
      | none => (kwAmount text "Total Deductions").getD 0
  else d0

/-- the document-level totals the multi-truck parser extracts before
walking blocks (lines 681-825) -/
structure MultiCtx where
  netPay : Option ℚ
  safety : ℚ
  prepass : ℚ
  insurance : ℚ
  ifta : ℚ
  dispatch : ℚ
  deductions : ℚ
  fuelTotal : Option ℚ
  reimbTotal : ℚ
deriving DecidableEq

def multiCtx (text : String) : MultiCtx :=
  { netPay := kwAmount text "Net Pay",
    safety := (kwAmount text "Safety").getD 0,
    prepass := (kwAmount text "Prepass").getD 0,
    insurance := (kwAmount text "Insurance").getD 0,
    ifta := (kwAmount text "IFTA").getD 0,
    dispatch := (kwAmount text "Dispatch Fee").getD 0,
    deductions := deductionsOf text,
    fuelTotal := kwAmount text "Fuel",
    reimbTotal := reimbTotalOf text }

/-- header plates of the multi parser in document order, duplicates kept
(lines 691-702) -/
def multiHeaderPlates (lines : List String) : List String :=
  match headerPlateText (joinLines lines) with
  | some pt => ((wordRuns pt).filter (plateShapeCI 2)).map upStr
  | none => []

/-- leading-letter strip applied to block-row plates (lines 709-716);
unlike the per-block normalization it does not consult the whitelist -/
def norm709 (p : String) : String :=
  if 6 < p.length ∧ p.toList.headD ' ' ≠ 'V' then
    let t := String.mk (p.toList.drop 1)
    if chPre "VW".toList t.toList ∨ chPre "VV".toList t.toList then t else p
  else p

/-- the distinct whitelisted plates of the document, in insertion order:
header, block rows, concatenated text (lines 691-750).  The Python set is
unordered; the model fixes first-insertion order, which makes the document's
first header plate the "first vehicle". -/
def multiValidPlates (lines : List String) : List String :=
  let text := joinLines lines
  let raw := (multiHeaderPlates lines ++
    (lines.flatMap (blockLazyPlates 2 4)).map norm709 ++
    (concatPlates text).map upStr).dedup
  ((raw.filter (fun p => decide (5 ≤ (trimStr p).length))).filter
      (fun p => p ≠ "VW9237" ∧ p ≠ "NVW9328")).filter
    (fun p => VALID_LICENSE_PLATES.contains p)

/-! ## Multi-truck assembly and reconciliation -/

/-- sum of the eleven expense categories (the reimbursement key is not yet
present when `total_expenses` is computed at line 1297) -/
def catsSumNoReimb (c : Cats) : ℚ :=
  c.fuel + c.dispatch_fee + c.insurance + c.safety + c.prepass + c.ifta +
    c.driver_pay + c.payroll_fee + c.truck_parking + c.service_on_truck + c.custom

/-- build one per-vehicle settlement (lines 1256-1317): fixed shared costs
always split in half, dispatch fee proportional to gross, payroll fee 6.5%
of driver pay, deductions on the first vehicle, reimbursement distributed
proportionally when not per-block -/
def mkSettlement (pd : PlateData) (ctx : MultiCtx) (totalGross : ℚ)
    (isFirst : Bool) (p : String) : SettleData :=
  let a := pdLookup pd p
  let cats0 : Cats :=
    { fuel := a.fuel,
      dispatch_fee := if 0 < totalGross then ctx.dispatch * a.gross / totalGross else 0,
      insurance := ctx.insurance / 2,
      safety := ctx.safety / 2,
      prepass := ctx.prepass / 2,
      ifta := ctx.ifta / 2,
      driver_pay := a.driverPay,
      payroll_fee := a.driverPay * (65 / 1000 : ℚ),
      truck_parking := 0,
      service_on_truck := 0,
      custom := if isFirst then ctx.deductions else 0,
      reimbursement := 0 }
  let texp := catsSumNoReimb cats0
  let reimb :=
    if a.reimb = 0 ∧ 0 < ctx.reimbTotal ∧ ¬pd.isEmpty then
      (if 0 < totalGross then ctx.reimbTotal * a.gross / totalGross else 0)
    else a.reimb
  { gross_revenue := some a.gross,
    net_profit := some (a.gross - texp + reimb),
    expenses := some texp,
    expense_categories := { cats0 with reimbursement := reimb },
    miles_driven := none,
    blocks_delivered := some a.blocks,
    license_plate := some p,
    driver_name := a.driverName }

/-- emission loop (lines 1248-1318): plates with zero accumulated gross
revenue are skipped; the first emitted vehicle carries the deductions -/
def assembleGo (pd : PlateData) (ctx : MultiCtx) (totalGross : ℚ) :
    Bool → List String → List SettleData
  | _, [] => []
  | isFirst, p :: ps =>
    if pdHas pd p ∧ (pdLookup pd p).gross ≠ 0 then
      mkSettlement pd ctx totalGross isFirst p ::
        assembleGo pd ctx totalGross false ps
    else assembleGo pd ctx totalGross isFirst ps

def assemble (pd : PlateData) (ctx : MultiCtx) (validPlates : List String) :
    List SettleData :=
  assembleGo pd ctx ((pd.map (fun e => e.2.gross)).sum) true validPlates

/-- fuel reconciliation against a stated fuel total (lines 1320-1338) -/
def fuelAdjust (ft : Option ℚ) (ss : List SettleData) : List SettleData :=
  match ft with
  | none => ss
  | some f =>
    if ss.isEmpty then ss
    else
      let calcFuel := (ss.map (fun s => s.expense_categories.fuel)).sum
      let diff := f - calcFuel
      if 1 / 100 < |diff| then
        let tg := (ss.map (fun s => s.gross_revenue.getD 0)).sum
        if 0 < tg then
          ss.map (fun s =>
            let adj := diff * (s.gross_revenue.getD 0 / tg)
            let e := s.expenses.getD 0 + adj
            { s with
              expense_categories :=
                { s.expense_categories with fuel := s.expense_categories.fuel + adj },
              expenses := some e,
              net_profit := some (s.gross_revenue.getD 0 - e +
                s.expense_categories.reimbursement) })
        else ss
      else ss

/-- the residual adjustment applied to the first vehicle (lines 1375-1397) -/
def adjustFirst (difference : ℚ) : List SettleData → List SettleData
  | [] => []
  | s :: rest =>
    let e := s.expenses.getD 0 + difference
    ({ s with
      expenses := some e,
      expense_categories :=
        { s.expense_categories with custom := s.expense_categories.custom + difference },
      net_profit := some (s.gross_revenue.getD 0 - e +
        s.expense_categories.reimbursement) }) :: rest

/-- net-pay reconciliation (lines 1340-1397): decide whether the stated net
pay includes reimbursement (closest hypothesis within one dollar), possibly
strip the reimbursement from every net profit, then move any significant
residual into the first vehicle's custom expenses when deductions exist -/
def netPayAdjust (pdfNetPay : Option ℚ) (deductions : ℚ) (ss : List SettleData) :
    List SettleData :=
  match pdfNetPay with
  | none => ss
  | some p =>
    if ss.isEmpty then ss
    else
      let calcNet := (ss.map (fun s => s.net_profit.getD 0)).sum
      let totReimb := (ss.map (fun s => s.expense_categories.reimbursement)).sum
      let dWith := |calcNet - p|
      let dWithout := |calcNet - totReimb - p|
      let stripped :=
        if dWithout < dWith ∧ dWithout < 1 then
          ss.map (fun s =>
            { s with net_profit := some (s.net_profit.getD 0 -
                s.expense_categories.reimbursement) })
        else ss
      let difference := calcNet - p
      if 1 / 100 < |difference| ∧ 0 < deductions then adjustFirst difference stripped
      else stripped

/-- the accumulator state the multi-truck parser builds for a document -/
def multiPlateData (lines : List String) : PlateData :=
  scanBlocks lines (multiHeaderPlates lines) (multiValidPlates lines)

/-- emission followed by the two reconciliation passes (lines 1240-1397) -/
def multiPipeline (lines : List String) : List SettleData :=
  let ctx := multiCtx (joinLines lines)
  netPayAdjust ctx.netPay ctx.deductions (fuelAdjust ctx.fuelTotal
    (assemble (multiPlateData lines) ctx (multiValidPlates lines)))

/-- the multi-truck path of `parse_amazon_relay_pdf_multi_truck`: `none`
when fewer than two distinct whitelisted plates are found or no settlement
is produced (the source then falls back to the single-vehicle parser) -/
def parse_multi_core (lines : List String) : Option (List SettleData) :=
  if (multiValidPlates lines).length < 2 then none
  else if (multiPipeline lines).isEmpty then none
  else some (multiPipeline lines)

/-- `parse_amazon_relay_pdf_multi_truck` (validation-free return path) -/
def parse_amazon_relay_pdf_multi_truck (lines : List String) (stype : Option String) :
    List SettleData :=
  (parse_multi_core lines).getD [parse_amazon_relay_pdf lines stype]

/-! ## Output builder: `SettlementExtractor.extract_from_pdf` -/

/-- the caller-owned raw document: ordered text lines plus source filename -/
structure RawDocument where
  lines : List String
  filename : String
deriving DecidableEq

/-- one settlement of the structured JSON output (lines 90-120).  The
builder coerces missing numeric fields to zero with `or 0`. -/
structure StructuredSettlement where
  licensePlate : Option String
  driverName : Option String
  grossRevenue : ℚ
  netProfit : ℚ
  totalExpenses : ℚ
  categories : Cats
  milesDriven : ℚ
  blocksDelivered : ℕ
  driverPay : ℚ
  payrollFee : ℚ
deriving DecidableEq

/-- the `or 0` normalisation of lines 100-115: a missing (`None`) value and
a reported zero both become `0` in the structured record -/
def structureSettlement (sd : SettleData) : StructuredSettlement :=
  { licensePlate := sd.license_plate,
    driverName := sd.driver_name,
    grossRevenue := sd.gross_revenue.getD 0,
    netProfit := sd.net_profit.getD 0,
    totalExpenses := sd.expenses.getD 0,
    categories := sd.expense_categories,
    milesDriven := sd.miles_driven.getD 0,
    blocksDelivered := sd.blocks_delivered.getD 0,
    driverPay := sd.expense_categories.driver_pay,
    payrollFee := sd.expense_categories.payroll_fee }

/-- the top-level extraction result (lines 80-128).  `extraction_date` is
`datetime.now().isoformat()` in the source; the wall-clock reading is an
explicit parameter here. -/
structure ExtractResult where
  sourceFile : String
  extractionDate : String
  settlementType : Option String
  settlements : List StructuredSettlement
deriving DecidableEq

/-- `SettlementExtractor.extract_from_pdf` (lines 27-128): settlement-type
detection, multi-truck routing (any multi-truck detection, or an NBM hint),
and the structured output assembly -/
def extract_from_pdf (doc : RawDocument) (stypeArg : Option String) (now : String) :
    ExtractResult :=
  let stype := match stypeArg with
    | some s => some s
    | none => detect_settlement_type doc.lines
  let data :=
    if detect_multiple_trucks doc.lines then
      parse_amazon_relay_pdf_multi_truck doc.lines stype
    else if stype.map upStr = some "NBM TRANSPORT LLC" then
      parse_amazon_relay_pdf_multi_truck doc.lines stype
    else [parse_amazon_relay_pdf doc.lines stype]
  { sourceFile := doc.filename,
    extractionDate := now,
    settlementType := stype,
    settlements := data.map structureSettlement }

/-! ## Router guard (`routers/extractor.py`, `extract_settlement_data`) -/

/-- lines 42-49: an extraction result with no settlements raises
`HTTPException(400)`; otherwise the data is returned -/
def extract_settlement_data (r : ExtractResult) : Except Nat ExtractResult :=
  if r.settlements.isEmpty then Except.error 400 else Except.ok r

/-! ## Validator expectations (`validation.py`, `validate_expenses`) -/

/-- the validator's expected per-vehicle share of a shared expense
(lines 113 and 118): the total divided by the number of vehicles -/
def expected_shared_per_truck (shared : ℚ) (numTrucks : ℕ) : ℚ :=
  if 0 < numTrucks then shared / (numTrucks : ℚ) else 0

/-- the validator's shared-allocation warning condition (line 121) -/
def shared_alloc_mismatch (actual expected : ℚ) : Bool :=
  decide ((1 : ℚ) / 100 < |actual - expected|)

/-! ## Record-level properties -/

/-- `net_profit = gross_revenue - total_expenses + reimbursement` -/
def netEquation (s : SettleData) : Prop :=
  s.net_profit.getD 0 =
    s.gross_revenue.getD 0 - s.expenses.getD 0 + s.expense_categories.reimbursement

/-- `net_profit = gross_revenue - total_expenses` (reimbursement excluded) -/
def netEquationNoReimb (s : SettleData) : Prop :=
  s.net_profit.getD 0 = s.gross_revenue.getD 0 - s.expenses.getD 0

def grossOf (ss : List SettleData) : List ℚ := ss.map (fun s => s.gross_revenue.getD 0)

def platesOf (ss : List SettleData) : List (Option String) :=
  ss.map (fun s => s.license_plate)

def insOf (ss : List SettleData) : List ℚ := ss.map (fun s => s.expense_categories.insurance)

def safetyOf (ss : List SettleData) : List ℚ := ss.map (fun s => s.expense_categories.safety)

def prepassOf (ss : List SettleData) : List ℚ :=
  ss.map (fun s => s.expense_categories.prepass)

def iftaOf (ss : List SettleData) : List ℚ := ss.map (fun s => s.expense_categories.ifta)

/-! ## Lemmas: parsed amounts are non-negative -/

theorem parseMoneyAt_nonneg {cs : List Char} {r : ℚ × List Char}
    (h : parseMoneyAt cs = some r) : 0 ≤ r.1 := by
  simp only [parseMoneyAt] at h
  split at h
  · exact absurd h (by simp)
  · simp only [Option.some.injEq] at h
    subst h
    have h1 : (0 : ℚ) ≤ ((natOfDigits (List.filter isDigitCh
        (List.takeWhile (fun c => isDigitCh c || c = ',') cs))) : ℚ) :=
      Nat.cast_nonneg _
    have h2 : ∀ (ds : List Char), (0 : ℚ) ≤ (natOfDigits ds : ℚ) / (10 : ℚ) ^ ds.length :=
      fun ds => div_nonneg (Nat.cast_nonneg _) (by positivity)
    exact add_nonneg h1 (h2 _)

theorem dollarAmountsGo_nonneg :
    ∀ (n : Nat) (cs : List Char) (q : ℚ), q ∈ dollarAmountsGo n cs → 0 ≤ q := by
  intro n
  induction n with
  | zero => intro cs q h; simp [dollarAmountsGo] at h
  | succ m ih =>
    intro cs q h
    match cs with
    | [] => simp [dollarAmountsGo] at h
    | c :: cs' =>
      unfold dollarAmountsGo at h
      split at h
      · split at h
        · rename_i r heq
          rcases List.mem_cons.mp h with h1 | h1
          · exact h1 ▸ parseMoneyAt_nonneg heq
          · exact ih _ _ h1
        · exact ih _ _ h
      · exact ih _ _ h

theorem dollarAmounts_nonneg {s : String} {q : ℚ} (h : q ∈ dollarAmounts s) : 0 ≤ q :=
  dollarAmountsGo_nonneg _ _ _ h

theorem dateTimeDollarAt_nonneg {cs : List Char} {q : ℚ}
    (h : dateTimeDollarAt cs = some q) : 0 ≤ q := by
  simp only [dateTimeDollarAt] at h
  repeat' split at h
  all_goals
    first
    | exact Option.noConfusion h
    | (rcases Option.map_eq_some'.mp h with ⟨r, hr, hq⟩
       exact hq ▸ parseMoneyAt_nonneg hr)

theorem dateTimeDollarGo_nonneg :
    ∀ (n : Nat) (cs : List Char) (q : ℚ), dateTimeDollarGo n cs = some q → 0 ≤ q := by
  intro n
  induction n with
  | zero => intro cs q h; simp [dateTimeDollarGo] at h
  | succ m ih =>
    intro cs q h
    match cs with
    | [] => simp [dateTimeDollarGo] at h
    | c :: cs' =>
      unfold dateTimeDollarGo at h
      split at h
      · rename_i heq
        exact dateTimeDollarAt_nonneg (heq.trans h)
      · exact ih _ _ h

theorem dateTimeDollarIn_nonneg {line : String} {q : ℚ}
    (h : dateTimeDollarIn line = some q) : 0 ≤ q :=
  dateTimeDollarGo_nonneg _ _ _ h

theorem fuelLookahead_nonneg (lines : List String) (limit : Nat) (ff : Bool) :
    ∀ (fb j : Nat), 0 ≤ (fuelLookahead lines limit ff j fb).1 := by
  intro fb
  induction fb with
  | zero => intro j; simp [fuelLookahead]
  | succ m ih =>
    intro j
    unfold fuelLookahead
    split
    case isFalse => simp
    split
    case isTrue => simp
    dsimp only
    split
    case isTrue => simp
    split
    case h_1 heq => simpa using dateTimeDollarIn_nonneg heq
    split
    case h_2 => exact ih _
    split
    case isFalse => exact ih _
    case isTrue h1 => exact le_of_lt (by simpa using h1.2.2)

theorem blockRowDeltas_gross_nonneg (lines : List String) (i : Nat) (line : String) :
    0 ≤ (blockRowDeltas lines i line).1.1 := by
  unfold blockRowDeltas
  dsimp only
  match h : (dollarAmounts line).head? with
  | none => simp [h]
  | some a =>
    have : a ∈ dollarAmounts line := List.mem_of_mem_head? h
    simpa [h] using dollarAmounts_nonneg this

/-! ## Lemmas: the scanner keeps accumulated gross revenue non-negative -/

theorem pdUpdate_gross_pres {pd : PlateData} {p : String} {f : PlateAcc → PlateAcc}
    (hf : ∀ a, 0 ≤ a.gross → 0 ≤ (f a).gross)
    (h : ∀ e ∈ pd, 0 ≤ e.2.gross) : ∀ e ∈ pdUpdate pd p f, 0 ≤ e.2.gross := by
  intro e he
  rcases List.mem_map.mp he with ⟨e0, he0, hmap⟩
  subst hmap
  by_cases hc : e0.1 = p <;> simp only [pdUpdate, hc, if_true, if_false, reduceIte]
  · exact hf _ (h e0 he0)
  · exact h e0 he0

theorem updName_gross {pd : PlateData} (p : String) (nm : Option String)
    (h : ∀ e ∈ pd, 0 ≤ e.2.gross) : ∀ e ∈ updName pd p nm, 0 ≤ e.2.gross := by
  unfold updName
  split
  · split
    · refine pdUpdate_gross_pres (fun a ha => ?_) h
      match hd : a.driverName with
      | none => simpa [hd] using ha
      | some _ => simpa [hd] using ha
    · exact h
  · exact h

theorem addDeltas_gross (lines : List String) (i : Nat) (line : String) (a : PlateAcc)
    (ha : 0 ≤ a.gross) : 0 ≤ (addDeltas (blockRowDeltas lines i line).1 a).gross :=
  add_nonneg ha (blockRowDeltas_gross_nonneg lines i line)

theorem scanStep_gross (lines : List String) (hp vp : List String) (i : Nat)
    (line : String) {pd : PlateData} (h : ∀ e ∈ pd, 0 ≤ e.2.gross) :
    ∀ e ∈ (scanStep lines hp vp i line pd).1, 0 ≤ e.2.gross := by
  unfold scanStep
  dsimp only
  repeat' split
  all_goals dsimp only
  all_goals
    first
    | exact h
    | exact pdUpdate_gross_pres (fun a ha => addDeltas_gross lines i line a ha)
        (updName_gross _ _ h)
    | exact updName_gross _ _
        (pdUpdate_gross_pres (fun a ha => addDeltas_gross lines i line a ha) h)

theorem scanBlocksGo_gross (lines : List String) (hp vp : List String) :
    ∀ (fb i : Nat) (pd : PlateData), (∀ e ∈ pd, 0 ≤ e.2.gross) →
      ∀ e ∈ scanBlocksGo lines hp vp i fb pd, 0 ≤ e.2.gross := by
  intro fb
  induction fb with
  | zero => intro i pd h; simpa [scanBlocksGo] using h
  | succ m ih =>
    intro i pd h
    unfold scanBlocksGo
    split
    · exact ih _ _ (scanStep_gross lines hp vp i _ h)
    · exact h

theorem scanBlocks_gross (lines : List String) (hp vp : List String) :
    ∀ e ∈ scanBlocks lines hp vp, 0 ≤ e.2.gross := by
  refine scanBlocksGo_gross lines hp vp _ _ _ (fun e he => ?_)
  rcases List.mem_map.mp he with ⟨p, _, hmap⟩
  subst hmap
  simp

theorem pdLookup_gross_nonneg {pd : PlateData} (h : ∀ e ∈ pd, 0 ≤ e.2.gross)
    (p : String) : 0 ≤ (pdLookup pd p).gross := by
  unfold pdLookup
  match hf : pd.find? (fun e => e.1 = p) with
  | none => simp [hf]
  | some e =>
    have := h e (List.mem_of_find?_eq_some hf)
    simpa [hf] using this

theorem multiPlateData_gross_nonneg (lines : List String) (p : String) :
    0 ≤ (pdLookup (multiPlateData lines) p).gross :=
  pdLookup_gross_nonneg (scanBlocks_gross _ _ _) p

/-! ## Lemmas: emission -/

theorem pdLookup_not_has {pd : PlateData} {p : String} (h : pdHas pd p = false) :
    pdLookup pd p = {} := by
  unfold pdHas at h
  unfold pdLookup
  match hf : pd.find? (fun e => e.1 = p) with
  | none => simp [hf]
  | some e => rw [hf] at h; simp at h

/-- every record the emission loop produces carries a plate from the list,
the accumulated gross revenue of that plate (which is nonzero), the exact
net-profit equation, and the halved shared fixed costs -/
theorem assembleGo_props (pd : PlateData) (ctx : MultiCtx) (tg : ℚ) :
    ∀ (b : Bool) (ps : List String) (s : SettleData), s ∈ assembleGo pd ctx tg b ps →
      ∃ p ∈ ps, s.license_plate = some p ∧
        s.gross_revenue = some ((pdLookup pd p).gross) ∧
        (pdLookup pd p).gross ≠ 0 ∧
        netEquation s ∧
        s.expense_categories.insurance = ctx.insurance / 2 ∧
        s.expense_categories.safety = ctx.safety / 2 ∧
        s.expense_categories.prepass = ctx.prepass / 2 ∧
        s.expense_categories.ifta = ctx.ifta / 2 := by
  intro b ps
  induction ps generalizing b with
  | nil =>
    intro s hs
    cases b <;> exact absurd hs (List.not_mem_nil s)
  | cons p ps ih =>
    intro s hs
    unfold assembleGo at hs
    split at hs
    · rename_i hcond
      rcases List.mem_cons.mp hs with h1 | h1
      · subst h1
        exact ⟨p, List.mem_cons_self _ _, rfl, rfl, hcond.2, rfl, rfl, rfl, rfl, rfl⟩
      · rcases ih false _ h1 with ⟨q, hq, hrest⟩
        exact ⟨q, List.mem_cons_of_mem _ hq, hrest⟩
    · rcases ih b _ hs with ⟨q, hq, hrest⟩
      exact ⟨q, List.mem_cons_of_mem _ hq, hrest⟩

/-- the emitted gross revenues sum to the accumulated gross revenue of the
plate list: skipped plates contribute exactly zero -/
theorem assembleGo_gross_sum (pd : PlateData) (ctx : MultiCtx) (tg : ℚ) :
    ∀ (b : Bool) (ps : List String),
      (grossOf (assembleGo pd ctx tg b ps)).sum =
        (ps.map (fun p => (pdLookup pd p).gross)).sum := by
  intro b ps
  induction ps generalizing b with
  | nil => cases b <;> rfl
  | cons p ps ih =>
    unfold assembleGo
    split
    · rename_i hcond
      simp only [grossOf, List.map_cons, List.sum_cons] at *
      rw [ih false]
      rfl
    · rename_i hcond
      simp only [List.map_cons, List.sum_cons]
      rw [ih b]
      have h0 : (pdLookup pd p).gross = 0 := by
        by_cases hh : pdHas pd p
        · by_contra hne
          exact hcond ⟨hh, hne⟩
        · rw [pdLookup_not_has (Bool.not_eq_true _ ▸ eq_false_of_ne_true hh)]
      rw [h0, zero_add]

/-! ## Lemmas: the reconciliation passes preserve plates, gross revenue and
the shared fixed-cost allocations -/

/-- the output fields the reconciliation passes never touch -/
def projTuple (s : SettleData) : Option String × ℚ × ℚ × ℚ × ℚ × ℚ :=
  (s.license_plate, s.gross_revenue.getD 0, s.expense_categories.insurance,
   s.expense_categories.safety, s.expense_categories.prepass,
   s.expense_categories.ifta)

theorem adjustFirst_projTuple (d : ℚ) (ss : List SettleData) :
    (adjustFirst d ss).map projTuple = ss.map projTuple := by
  cases ss with
  | nil => rfl
  | cons s t => rfl

theorem fuelAdjust_projTuple (ft : Option ℚ) (ss : List SettleData) :
    (fuelAdjust ft ss).map projTuple = ss.map projTuple := by
  unfold fuelAdjust
  dsimp only
  repeat' split
  all_goals first
    | rfl
    | (rw [List.map_map]; rfl)

theorem netPayAdjust_projTuple (p : Option ℚ) (d : ℚ) (ss : List SettleData) :
    (netPayAdjust p d ss).map projTuple = ss.map projTuple := by
  unfold netPayAdjust
  dsimp only
  repeat' split
  all_goals try dsimp only
  all_goals first
    | rfl
    | (rw [List.map_map]; rfl)
    | (rw [adjustFirst_projTuple, List.map_map]; rfl)
    | rw [adjustFirst_projTuple]

theorem multiPipeline_projTuple (lines : List String) :
    (multiPipeline lines).map projTuple =
      (assemble (multiPlateData lines) (multiCtx (joinLines lines))
        (multiValidPlates lines)).map projTuple := by
  unfold multiPipeline
  rw [netPayAdjust_projTuple, fuelAdjust_projTuple]

/-! ## Lemmas: the net-profit equation through the reconciliation passes -/

theorem fuelAdjust_netEq (ft : Option ℚ) (ss : List SettleData)
    (h : ∀ s ∈ ss, netEquation s) : ∀ s ∈ fuelAdjust ft ss, netEquation s := by
  unfold fuelAdjust
  dsimp only
  repeat' split
  all_goals first
    | exact h
    | (intro s hs
       rcases List.mem_map.mp hs with ⟨s0, _, hmap⟩
       subst hmap
       exact rfl)

theorem adjustFirst_netDisj (d : ℚ) (ss : List SettleData)
    (h : ∀ s ∈ ss, netEquation s ∨ netEquationNoReimb s) :
    ∀ s ∈ adjustFirst d ss, netEquation s ∨ netEquationNoReimb s := by
  cases ss with
  | nil => intro s hs; simp [adjustFirst] at hs
  | cons s0 t =>
    intro s hs
    rcases List.mem_cons.mp hs with h1 | h1
    · subst h1
      exact Or.inl rfl
    · exact h s (List.mem_cons_of_mem _ h1)

theorem netPayAdjust_netDisj (p : Option ℚ) (d : ℚ) (ss : List SettleData)
    (h : ∀ s ∈ ss, netEquation s) :
    ∀ s ∈ netPayAdjust p d ss, netEquation s ∨ netEquationNoReimb s := by
  have hstrip : ∀ (l : List SettleData), (∀ s ∈ l, netEquation s) →
      ∀ s ∈ l.map (fun s => { s with net_profit := some (s.net_profit.getD 0 -
        s.expense_categories.reimbursement) }), netEquation s ∨ netEquationNoReimb s := by
    intro l hl s hs
    rcases List.mem_map.mp hs with ⟨s0, hs0, hmap⟩
    subst hmap
    right
    unfold netEquationNoReimb
    dsimp only [Option.getD_some]
    have := hl s0 hs0
    unfold netEquation at this
    rw [this]
    ring
  unfold netPayAdjust
  dsimp only
  repeat' split
  all_goals first
    | exact fun s hs => Or.inl (h s hs)
    | exact hstrip ss h
    | exact adjustFirst_netDisj _ _ (hstrip ss h)
    | exact adjustFirst_netDisj _ _ (fun s hs => Or.inl (h s hs))

/-! # Claim theorems -/

set_option maxRecDepth 100000

/-! ## Supporting lemmas for the claim theorems -/

/-- the multi-truck path returns exactly the reconciled pipeline output -/
theorem parse_multi_core_eq {lines : List String} {ss : List SettleData}
    (h : parse_multi_core lines = some ss) : ss = multiPipeline lines := by
  unfold parse_multi_core at h
  split at h
  · exact Option.noConfusion h
  · split at h
    · exact Option.noConfusion h
    · exact (Option.some.inj h).symm

/-- every record of the reconciled pipeline output carries a whitelisted
plate of the document, the accumulated (nonzero) gross revenue of that
plate, and the halved shared fixed costs: the reconciliation passes never
touch these fields -/
theorem pipelineProps (lines : List String) (s : SettleData)
    (hs : s ∈ multiPipeline lines) :
    ∃ p ∈ multiValidPlates lines,
      s.license_plate = some p ∧
      s.gross_revenue.getD 0 = (pdLookup (multiPlateData lines) p).gross ∧
      (pdLookup (multiPlateData lines) p).gross ≠ 0 ∧
      s.expense_categories.insurance = (multiCtx (joinLines lines)).insurance / 2 ∧
      s.expense_categories.safety = (multiCtx (joinLines lines)).safety / 2 ∧
      s.expense_categories.prepass = (multiCtx (joinLines lines)).prepass / 2 ∧
      s.expense_categories.ifta = (multiCtx (joinLines lines)).ifta / 2 := by
  have hmem : projTuple s ∈ (multiPipeline lines).map projTuple :=
    List.mem_map_of_mem projTuple hs
  rw [multiPipeline_projTuple] at hmem
  rcases List.mem_map.mp hmem with ⟨s0, hs0, heq⟩
  unfold assemble at hs0
  rcases assembleGo_props _ _ _ _ _ s0 hs0 with
    ⟨p, hp, hplate, hgross, hne0, _, hins, hsaf, hpre, hifta⟩
  have e1 : s0.license_plate = s.license_plate := congrArg Prod.fst heq
  have e2 : s0.gross_revenue.getD 0 = s.gross_revenue.getD 0 :=
    congrArg (fun x => x.2.1) heq
  have e3 : s0.expense_categories.insurance = s.expense_categories.insurance :=
    congrArg (fun x => x.2.2.1) heq
  have e4 : s0.expense_categories.safety = s.expense_categories.safety :=
    congrArg (fun x => x.2.2.2.1) heq
  have e5 : s0.expense_categories.prepass = s.expense_categories.prepass :=
    congrArg (fun x => x.2.2.2.2.1) heq
  have e6 : s0.expense_categories.ifta = s.expense_categories.ifta :=
    congrArg (fun x => x.2.2.2.2.2) heq
  refine ⟨p, hp, ?_, ?_, hne0, ?_, ?_, ?_, ?_⟩
  · rw [← e1, hplate]
  · rw [← e2, hgross]
    exact Option.getD_some
  · rw [← e3, hins]
  · rw [← e4, hsaf]
  · rw [← e5, hpre]
  · rw [← e6, hifta]

/-- income-sheet block counts are only recorded when nonzero -/
theorem incomeBlocks_pos (text : String) :
    (incomeBlocks text).all (fun b => decide (0 < b)) = true := by
  unfold incomeBlocks
  dsimp only
  split
  · rename_i h
    simpa [Option.all] using Nat.pos_of_ne_zero h
  · split
    · rename_i h
      simpa [Option.all] using Nat.pos_of_ne_zero h
    · rfl

/-- paystub block counts are only recorded when nonzero -/
theorem fmt1Blocks_pos (text : String) :
    (fmt1Blocks text).all (fun b => decide (0 < b)) = true := by
  unfold fmt1Blocks
  dsimp only
  split
  · rename_i h
    simpa [Option.all] using Nat.pos_of_ne_zero h
  · rfl

/-! ## Concrete documents used as counterexamples and witnesses -/

/-- a paystub naming gross pay 2000, net pay 1900 and fuel 500: the stated
net pay is kept verbatim although gross minus expenses is 1500 -/
def c1doc : List String := ["Gross Pay $2000.00", "Net Pay $1900.00", "Fuel $500.00"]

/-- a three-vehicle document with insurance 300: each record is charged the
half share 150 instead of the per-vehicle share 100 -/
def c2doc : List String :=
  ["Plate#: VW9327 VW9328 VV9952", "B-1 Alice VW9327 $500.00",
   "B-2 Bob VW9328 $400.00", "B-3 Carl VV9952 $300.00", "Insurance $300.00"]

/-- a single-vehicle document whose header names a plate outside the
whitelist: the single parser copies it to the output unchecked -/
def c3doc : List String := ["Plate#: ZZ9999", "Gross Pay $2000.00"]

/-- a header with two distinct plausible plates, neither whitelisted: the
classifier still marks the document multi-vehicle -/
def c4doc : List String := ["Plate#: AB1234 CD5678"]

/-- a document stating only a gross pay: distance and block count are not
found by the parser -/
def c6doc : List String := ["Gross Pay $500.00"]

/-- two whitelisted vehicles with block revenue 500 + 400, one non-whitelisted
block row of 100, and a stated document total of 1000 -/
def c7doc : List String :=
  ["Plate#: VW9327 VW9328", "B-1 Alice VW9327 $500.00",
   "B-2 Bob VW9328 $400.00", "B-3 Carl AB1234 $100.00", "Gross Pay $1000.00"]

/-- a minimal document for the determinism counterexample -/
def c9doc : List String := ["Gross Pay $100.00"]

/-- a clean two-vehicle document: block revenue 500 for VW9327 and 400 for
VW9328 -/
def w1doc : List String :=
  ["Plate#: VW9327 VW9328", "B-1 Alice VW9327 $500.00", "B-2 Bob VW9328 $400.00"]

/-- three whitelisted header plates, block revenue only for the first two:
VW1503 accumulates zero gross and is dropped from the output -/
def w10doc : List String :=
  ["Plate#: VW9327 VW9328 VW1503", "B-1 Alice VW9327 $500.00",
   "B-2 Bob VW9328 $400.00", "Insurance $100.00"]

/-! ## C1 -/

/-- C1, counterexample: on `c1doc` the single-vehicle path emits gross 2000,
net 1900 and expenses 500 with zero reimbursement, and 1900 is not within
one cent of 2000 - 500 (nor of the reimbursement-adjusted form): the stated
net pay is copied verbatim, so the net-profit equation fails on the
single-vehicle path. -/
theorem C1_counterexample :
    ((extract_from_pdf { lines := c1doc, filename := "a.pdf" } none "t").settlements.map
        (fun s => (s.grossRevenue, s.netProfit, s.totalExpenses,
          s.categories.reimbursement))) = [(2000, 1900, 500, 0)] ∧
    ¬ |(1900 : ℚ) - (2000 - 500 + 0)| < 1 / 100 ∧
    ¬ |(1900 : ℚ) - 0 - (2000 - 500)| < 1 / 100 := by
  refine ⟨by with_unfolding_all rfl, by norm_num, by norm_num⟩

/-- C1, amended to the multi-vehicle allocator (where the source recomputes
net profit): every record of a successful multi-vehicle parse satisfies
`net_profit = gross_revenue - total_expenses + reimbursement`, or the same
equation without reimbursement when the net-pay reconciliation has stripped
the reimbursement out of the net profit. -/
theorem C1_net_profit_equation (lines : List String) (ss : List SettleData)
    (h : parse_multi_core lines = some ss) :
    ∀ s ∈ ss, netEquation s ∨ netEquationNoReimb s := by
  intro s hs
  rw [parse_multi_core_eq h] at hs
  unfold multiPipeline at hs
  dsimp only at hs
  refine netPayAdjust_netDisj _ _ _ ?_ s hs
  refine fuelAdjust_netEq _ _ ?_
  intro t ht
  unfold assemble at ht
  rcases assembleGo_props _ _ _ _ _ t ht with ⟨p, _, _, _, _, hnet, _⟩
  exact hnet

/-- C1, witness: the amended theorem applied to the concrete two-vehicle
document `w1doc`, whose parse is evaluated by the kernel. -/
theorem C1_witness :
    (multiPipeline w1doc).all (fun s =>
      decide (s.net_profit.getD 0 = s.gross_revenue.getD 0 - s.expenses.getD 0 +
        s.expense_categories.reimbursement) ||
      decide (s.net_profit.getD 0 = s.gross_revenue.getD 0 - s.expenses.getD 0)) = true := by
  have h := C1_net_profit_equation w1doc (multiPipeline w1doc) (by with_unfolding_all rfl)
  simp only [List.all_eq_true, Bool.or_eq_true, decide_eq_true_eq]
  intro s hs
  exact h s hs

/-! ## C2 -/

/-- C2, code bug: on the three-vehicle document `c2doc` the allocator
charges each record the fixed half share 150 of the insurance total 300
(the divisor is hard-coded to 2), while the validator of `validation.py`
expects the per-vehicle share 300 / 3 = 100 and flags the difference. -/
theorem C2_shared_split_halved :
    insOf (multiPipeline c2doc) = [150, 150, 150] ∧
    (multiValidPlates c2doc).length = 3 ∧
    kwAmount (joinLines c2doc) "Insurance" = some 300 ∧
    expected_shared_per_truck 300 3 = 100 ∧
    shared_alloc_mismatch 150 (expected_shared_per_truck 300 3) = true := by
  refine ⟨by with_unfolding_all rfl, by with_unfolding_all rfl,
    by with_unfolding_all rfl, by with_unfolding_all rfl, by with_unfolding_all rfl⟩

/-! ## C3 -/

/-- C3, counterexample: the single-vehicle path copies the header plate
ZZ9999 to the output although it is not on the whitelist. -/
theorem C3_counterexample :
    ((extract_from_pdf { lines := c3doc, filename := "a.pdf" } none "t").settlements.map
      (fun s => s.licensePlate)) = [some "ZZ9999"] ∧
    "ZZ9999" ∉ VALID_LICENSE_PLATES := by
  exact ⟨by with_unfolding_all rfl, by decide⟩

/-- C3, amended to the multi-vehicle path (the only path that filters): every
record of a successful multi-vehicle parse carries a whitelisted plate. -/
theorem C3_whitelist_enforced (lines : List String) (ss : List SettleData)
    (h : parse_multi_core lines = some ss) :
    ∀ s ∈ ss, ∃ p, s.license_plate = some p ∧ p ∈ VALID_LICENSE_PLATES := by
  intro s hs
  rw [parse_multi_core_eq h] at hs
  rcases pipelineProps lines s hs with ⟨p, hp, hplate, _⟩
  refine ⟨p, hplate, ?_⟩
  unfold multiValidPlates at hp
  dsimp only at hp
  exact List.elem_iff.mp (List.mem_filter.mp hp).2

/-- C3, witness: the amended theorem applied to `w1doc`; every emitted plate
passes the whitelist test. -/
theorem C3_witness :
    (multiPipeline w1doc).all (fun s =>
      match s.license_plate with
      | some p => decide (p ∈ VALID_LICENSE_PLATES)
      | none => false) = true := by
  have h := C3_whitelist_enforced w1doc (multiPipeline w1doc) (by with_unfolding_all rfl)
  simp only [List.all_eq_true]
  intro s hs
  rcases h s hs with ⟨p, hp, hmem⟩
  rw [hp]
  exact decide_eq_true hmem

/-! ## C4 -/

/-- C4, counterexample: on `c4doc` the classifier answers true from two
distinct header candidates although no strategy yields even one whitelisted
identifier (header candidates AB1234 and CD5678 are not whitelisted, and the
block and concatenation strategies yield nothing). -/
theorem C4_counterexample :
    detect_multiple_trucks c4doc = true ∧
    ((detectHeaderPlates (joinLines c4doc)).dedup.filter
      (fun p => VALID_LICENSE_PLATES.contains p)).length = 0 ∧
    detectBlockPlates c4doc = [] ∧
    detectConcatPlates (joinLines c4doc) = [] := by
  refine ⟨by with_unfolding_all rfl, by with_unfolding_all rfl,
    by with_unfolding_all rfl, by with_unfolding_all rfl⟩

/-- C4, amended: the classifier answers true exactly when the header line
alone holds two distinct plausible identifiers (whitelist not consulted), or
the candidates pooled from all three strategies contain two distinct
whitelisted identifiers. -/
theorem C4_detection_rule (lines : List String) :
    detect_multiple_trucks lines = true ↔
      2 ≤ ((detectHeaderPlates (joinLines lines)).dedup).length ∨
      2 ≤ (detectValidPlates lines).length := by
  unfold detect_multiple_trucks
  dsimp only
  by_cases h1 : 2 ≤ ((detectHeaderPlates (joinLines lines)).dedup).length
  · simp [h1]
  · simp [h1]

/-- C4, witness: the amended rule applied to the concrete document `w1doc`,
whose header alone names two distinct plates. -/
theorem C4_witness : detect_multiple_trucks w1doc = true :=
  (C4_detection_rule w1doc).mpr (Or.inl (of_decide_eq_true (by with_unfolding_all rfl)))

/-! ## C5 -/

/-- C5: when the categorizer books a driver-pay figure, a previously found
payroll fee makes the figure gross with base `gross - fee` (the fee is kept);
otherwise base is `gross / 1.065` and the fee is `base * 0.065`. -/
theorem C5_driver_pay_derivation (amount : ℚ) (cats : Cats) (texp : ℚ) :
    (0 < cats.payroll_fee →
      (applyDriverPayGross amount cats texp).1.driver_pay = amount - cats.payroll_fee ∧
      (applyDriverPayGross amount cats texp).1.payroll_fee = cats.payroll_fee) ∧
    (¬ 0 < cats.payroll_fee →
      (applyDriverPayGross amount cats texp).1.driver_pay = amount / (1065 / 1000 : ℚ) ∧
      (applyDriverPayGross amount cats texp).1.payroll_fee =
        (amount / (1065 / 1000 : ℚ)) * (65 / 1000 : ℚ)) := by
  constructor
  · intro h
    simp only [applyDriverPayGross, if_pos h]
    exact ⟨trivial, trivial⟩
  · intro h
    simp only [applyDriverPayGross, if_neg h]
    exact ⟨trivial, trivial⟩

/-- C5, witness: both branches of the derivation at concrete inputs
(gross 1065 with fee 65 gives base 1000; gross 1065 with no fee gives base
1065 / 1.065 = 1000). -/
theorem C5_witness :
    (applyDriverPayGross 1065 { payroll_fee := 65 } 0).1.driver_pay = 1000 ∧
    (applyDriverPayGross 1065 {} 0).1.driver_pay = 1000 := by
  constructor
  · have h := (C5_driver_pay_derivation 1065 { payroll_fee := 65 } 0).1 (by norm_num)
    rw [h.1]
    norm_num
  · have h := (C5_driver_pay_derivation 1065 {} 0).2 (by norm_num)
    rw [h.1]
    norm_num

/-! ## C6 -/

/-- C6, counterexample: on `c6doc` the parser leaves distance and block count
unset, but the structured output of the extractor coerces both to zero, so a
consumer cannot distinguish "not reported" from "reported as zero" in the
output record. -/
theorem C6_counterexample :
    (parse_amazon_relay_pdf c6doc none).miles_driven = none ∧
    (parse_amazon_relay_pdf c6doc none).blocks_delivered = none ∧
    ((extract_from_pdf { lines := c6doc, filename := "a.pdf" } none "t").settlements.map
      (fun s => (s.milesDriven, s.blocksDelivered))) = [(0, 0)] := by
  refine ⟨by with_unfolding_all rfl, by with_unfolding_all rfl, by with_unfolding_all rfl⟩

/-- C6, amended: the parser itself keeps the distinction (a recorded block
count is always positive, never zero), but the structured output coerces an
unset distance or block count to zero with `or 0`. -/
theorem C6_unset_coerced_to_zero (lines : List String) (stype : Option String) :
    (parse_amazon_relay_pdf lines stype).blocks_delivered.all
      (fun b => decide (0 < b)) = true ∧
    (structureSettlement (parse_amazon_relay_pdf lines stype)).milesDriven =
      ((parse_amazon_relay_pdf lines stype).miles_driven).getD 0 ∧
    (structureSettlement (parse_amazon_relay_pdf lines stype)).blocksDelivered =
      ((parse_amazon_relay_pdf lines stype).blocks_delivered).getD 0 := by
  refine ⟨?_, rfl, rfl⟩
  have hb : (parse_amazon_relay_pdf lines stype).blocks_delivered =
      (if isIncomeSheet (joinLines lines) then incomeBlocks (joinLines lines)
       else fmt1Blocks (joinLines lines)) := rfl
  rw [hb]
  split
  · exact incomeBlocks_pos _
  · exact fmt1Blocks_pos _

/-- C6, witness: the amended coercion equations at the concrete document
`c6doc`. -/
theorem C6_witness :
    (structureSettlement (parse_amazon_relay_pdf c6doc none)).milesDriven =
      ((parse_amazon_relay_pdf c6doc none).miles_driven).getD 0 ∧
    (structureSettlement (parse_amazon_relay_pdf c6doc none)).blocksDelivered =
      ((parse_amazon_relay_pdf c6doc none).blocks_delivered).getD 0 :=
  ⟨(C6_unset_coerced_to_zero c6doc none).2.1, (C6_unset_coerced_to_zero c6doc none).2.2⟩

/-! ## C7 -/

/-- C7, counterexample: on `c7doc` the multi-vehicle parse succeeds and emits
per-vehicle gross revenues 500 and 400, while the document states the total
gross revenue 1000 (the 100 block of the non-whitelisted plate AB1234 is
dropped); 900 is not within one cent of 1000. -/
theorem C7_counterexample :
    grossOf (multiPipeline c7doc) = [500, 400] ∧
    parse_multi_core c7doc = some (multiPipeline c7doc) ∧
    kwAmount (joinLines c7doc) "Gross Pay" = some 1000 ∧
    ¬ |(500 : ℚ) + 400 - 1000| < 1 / 100 := by
  refine ⟨by with_unfolding_all rfl, by with_unfolding_all rfl,
    by with_unfolding_all rfl, by norm_num⟩

/-- C7, amended: the conservation that does hold is internal: the emitted
gross revenues sum to the documentwise accumulated block revenue of the
whitelisted plates (skipped zero-gross plates contribute nothing); the
stated document total is never consulted. -/
theorem C7_gross_conservation (lines : List String) (ss : List SettleData)
    (h : parse_multi_core lines = some ss) :
    (grossOf ss).sum = ((multiValidPlates lines).map
      (fun p => (pdLookup (multiPlateData lines) p).gross)).sum := by
  rw [parse_multi_core_eq h]
  have hg : ∀ l : List SettleData,
      grossOf l = (l.map projTuple).map (fun x => x.2.1) := by
    intro l
    rw [List.map_map]
    rfl
  rw [hg, multiPipeline_projTuple, ← hg]
  unfold assemble
  exact assembleGo_gross_sum _ _ _ _ _

/-- C7, witness: the amended theorem applied to `w10doc`, whose parse is
evaluated by the kernel. -/
theorem C7_witness :
    (grossOf (multiPipeline w10doc)).sum = ((multiValidPlates w10doc).map
      (fun p => (pdLookup (multiPlateData w10doc) p).gross)).sum :=
  C7_gross_conservation w10doc (multiPipeline w10doc) (by with_unfolding_all rfl)

/-! ## C8 -/

/-- C8: an extraction result with no settlements makes the router raise
HTTP 400, and a successful return implies at least one settlement; an
empty-but-successful result is impossible. -/
theorem C8_zero_settlements_rejected (r : ExtractResult) :
    (r.settlements = [] → extract_settlement_data r = Except.error 400) ∧
    (∀ x, extract_settlement_data r = Except.ok x → r.settlements ≠ []) := by
  constructor
  · intro h
    unfold extract_settlement_data
    rw [h]
    rfl
  · intro x hx h
    unfold extract_settlement_data at hx
    rw [h] at hx
    exact Except.noConfusion hx

/-- C8, witness: the guard fires on a concrete empty extraction result. -/
theorem C8_witness :
    extract_settlement_data
      { sourceFile := "a.pdf", extractionDate := "t", settlementType := none,
        settlements := [] } = Except.error 400 :=
  (C8_zero_settlements_rejected _).1 rfl

/-! ## C9 -/

/-- C9, counterexample: two runs of the extractor on the same raw document
differ byte for byte whenever the wall clock has moved, because the output
embeds the extraction timestamp. -/
theorem C9_counterexample :
    extract_from_pdf { lines := c9doc, filename := "a.pdf" } none "2024-01-01T00:00:00" ≠
      extract_from_pdf { lines := c9doc, filename := "a.pdf" } none "2024-01-02T00:00:00" := by
  intro h
  have h2 : ("2024-01-01T00:00:00" : String) = "2024-01-02T00:00:00" :=
    congrArg ExtractResult.extractionDate h
  exact absurd h2 (by decide)

/-- C9, amended: the extractor is deterministic in everything except the
embedded timestamp: the settlements, source file and settlement type of two
runs on the same raw document agree exactly. -/
theorem C9_deterministic_up_to_timestamp (doc : RawDocument) (stype : Option String)
    (t1 t2 : String) :
    (extract_from_pdf doc stype t1).settlements =
      (extract_from_pdf doc stype t2).settlements ∧
    (extract_from_pdf doc stype t1).sourceFile =
      (extract_from_pdf doc stype t2).sourceFile ∧
    (extract_from_pdf doc stype t1).settlementType =
      (extract_from_pdf doc stype t2).settlementType :=
  ⟨rfl, rfl, rfl⟩

/-- C9, witness: the amended determinism at a concrete document and two
distinct clock readings. -/
theorem C9_witness :
    (extract_from_pdf { lines := c9doc, filename := "a.pdf" } none "t1").settlements =
      (extract_from_pdf { lines := c9doc, filename := "a.pdf" } none "t2").settlements :=
  (C9_deterministic_up_to_timestamp { lines := c9doc, filename := "a.pdf" } none "t1" "t2").1

/-! ## C10 -/

/-- C10: every record of a successful multi-vehicle parse has strictly
positive gross revenue and carries exactly the half share of each shared
fixed cost (so the share of a skipped vehicle is not reallocated), and a
whitelisted plate whose accumulated gross revenue is zero appears on no
record at all. -/
theorem C10_positive_gross_emission (lines : List String) (ss : List SettleData)
    (h : parse_multi_core lines = some ss) :
    (∀ s ∈ ss, 0 < s.gross_revenue.getD 0 ∧
      s.expense_categories.insurance = (multiCtx (joinLines lines)).insurance / 2 ∧
      s.expense_categories.safety = (multiCtx (joinLines lines)).safety / 2 ∧
      s.expense_categories.prepass = (multiCtx (joinLines lines)).prepass / 2 ∧
      s.expense_categories.ifta = (multiCtx (joinLines lines)).ifta / 2) ∧
    (∀ p ∈ multiValidPlates lines, (pdLookup (multiPlateData lines) p).gross = 0 →
      ∀ s ∈ ss, s.license_plate ≠ some p) := by
  constructor
  · intro s hs
    rw [parse_multi_core_eq h] at hs
    rcases pipelineProps lines s hs with ⟨p, hp, hplate, hg, hne0, hins, hsaf, hpre, hifta⟩
    refine ⟨?_, hins, hsaf, hpre, hifta⟩
    rw [hg]
    exact lt_of_le_of_ne (multiPlateData_gross_nonneg lines p) (Ne.symm hne0)
  · intro p hp hzero s hs hplate
    rw [parse_multi_core_eq h] at hs
    rcases pipelineProps lines s hs with ⟨q, hq, hplq, hg, hne0, _⟩
    rw [hplate] at hplq
    have hqp : q = p := (Option.some.inj hplq).symm
    rw [hqp] at hne0
    exact hne0 hzero

/-- C10, witness: on `w10doc` the theorem yields positive gross for both
emitted records and excludes the zero-gross whitelisted plate VW1503 from
the output; the side conditions are evaluated by the kernel. -/
theorem C10_witness :
    (multiPipeline w10doc).all (fun s => decide (0 < s.gross_revenue.getD 0)) = true ∧
    (pdLookup (multiPlateData w10doc) "VW1503").gross = 0 ∧
    (multiPipeline w10doc).all
      (fun s => decide (s.license_plate ≠ some "VW1503")) = true := by
  have hmem : "VW1503" ∈ multiValidPlates w10doc :=
    of_decide_eq_true (by with_unfolding_all rfl)
  have h := C10_positive_gross_emission w10doc (multiPipeline w10doc)
    (by with_unfolding_all rfl)
  refine ⟨?_, by with_unfolding_all rfl, ?_⟩
  · simp only [List.all_eq_true, decide_eq_true_eq]
    intro s hs
    exact (h.1 s hs).1
  · simp only [List.all_eq_true, decide_eq_true_eq]
    intro s hs
    exact h.2 "VW1503" hmem (by with_unfolding_all rfl) s hs

end Elis
